import Mathlib

/-!
# Verification of `lib/alembic/autogenerate/render.py`

A shallow embedding of the migration-script rendering engine of this
repository (the alembic autogenerate renderer), together with theorems
settling the specification claims about it.

Conventions of the embedding:
* Python strings are Lean `String`s; Python `repr` of a string is modelled
  by `pyReprStr` (single-quoted with backslash escaping, a faithful
  simplification of CPython's quote-choosing repr).
* The mutable `AutogenContext` is threaded explicitly: functions that can
  add imports take and return the context.  Fallible code returns
  `Except RErr`.
* External collaborators (the dialect implementation's
  `render_ddl_sql_expr` / `render_type`, the user `render_item` hook) are
  modelled as data or as optional function fields of the context.
-/

namespace Render

/-- Python `repr` of a string, as used by every `%r` interpolation in
`render.py`.  Modelled as: single-quote the string, backslash-escaping
backslashes and single quotes (CPython may instead pick double quotes for
strings containing a quote; the claims never depend on that choice). -/
def pyReprStr (s : String) : String :=
  let q : Char := Char.ofNat 39
  let bs : Char := Char.ofNat 92
  let esc := s.data.foldr (fun c acc => if c = q ∨ c = bs then bs :: c :: acc else c :: acc) []
  String.mk (q :: esc ++ [q])

/-- Python `str`/`repr` of a boolean (`True` / `False`). -/
def pyBoolStr (b : Bool) : String := if b then "True" else "False"

/-- Python `repr` of an optional string (`None` when absent). -/
def pyReprOptStr : Option String → String
  | none => "None"
  | some s => pyReprStr s

/-- Python `str` of an `Optional[bool]` (`None` / `True` / `False`). -/
def pyOptBoolStr : Option Bool → String
  | none => "None"
  | some b => pyBoolStr b

/-- Python `repr` of a list of strings, e.g. `['a', 'b']`; used for
`repr([_ident(col) for col in cols])` in the foreign-key and
unique-constraint renderers. -/
def pyReprStrList (l : List String) : String :=
  "[" ++ String.intercalate ", " (l.map pyReprStr) ++ "]"

/-- Truthiness of a Python `Optional[str]` (`None` and `""` are falsy). -/
def strTruthy : Option String → Bool
  | none => false
  | some s => s ≠ ""

/-! ## The data model

Value-descriptors for the objects the renderer consumes.  They mirror the
SQLAlchemy / alembic objects the source manipulates; fields irrelevant to
every code path of `render.py` are omitted. -/

/-- A SQLAlchemy type object (`TypeEngine`).  `module` is
`type(type_).__module__`, `reprStr` is Python `repr(type_)`.
`base` covers plain types and `ARRAY`-like parameterized types
(`itemType` models the `item_type` attribute when present); `variant`
covers `sqltypes.Variant` (a base type plus per-dialect overrides). -/
inductive TypeDesc where
  | base (module : String) (visitName : String) (reprStr : String) (itemType : Option TypeDesc)
  | variant (impl : TypeDesc) (mapping : List (String × TypeDesc)) (reprStr : String)
deriving Repr

/-- `type(type_).__module__`; `sqltypes.Variant` lives in
`sqlalchemy.sql.type_api`. -/
def TypeDesc.moduleOf : TypeDesc → String
  | .base m _ _ _ => m
  | .variant _ _ _ => "sqlalchemy.sql.type_api"

/-- Python `repr(type_)`. -/
def TypeDesc.reprOf : TypeDesc → String
  | .base _ _ r _ => r
  | .variant _ _ r => r

/-- The `render_item` user hook (`opts["render_item"]`), an external user
callback receiving the item kind (and the item and context, which the
model elides since every claim is settled with the hook absent); `none`
models Python `False` ("decline, use default"). -/
def RenderItemHook := String → Option String

/-- The recognized rendering options of the context
(`autogen_context.opts`). -/
structure RenderOpts where
  renderAsBatch : Bool
  alembicModulePrefix : Option String
  sqlalchemyModulePrefix : Option String
  userModulePrefix : Option String
  renderItem : Option RenderItemHook

/-- The per-render-pass mutable context (`AutogenContext`).  `imports` is
the accumulating import set (a Python `set`, modelled as a list with
dedupe-on-insert); `hasBatch` is `_has_batch`; `implRenderType` models the
dialect implementation collaborator
`migration_context.impl.render_type(type_, ctx)` (`none` = declined or no
impl present). -/
structure AutogenContext where
  opts : RenderOpts
  hasBatch : Bool
  imports : List String
  implRenderType : TypeDesc → Option String

/-- `set.add`: insert a string into the import set (no duplicates). -/
def addImport (imports : List String) (s : String) : List String :=
  if s ∈ imports then imports else imports ++ [s]

/-- Record one import into the context. -/
def AutogenContext.withImport (ctx : AutogenContext) (s : String) : AutogenContext :=
  { ctx with imports := addImport ctx.imports s }

/-- `_user_defined_render(type_, object_, autogen_context)`: consult the
`render_item` hook; `none` is Python's `False` result. -/
def userDefinedRender (kind : String) (ctx : AutogenContext) : Option String :=
  match ctx.opts.renderItem with
  | none => none
  | some f => f kind

/-- `_sqlalchemy_autogenerate_prefix`: `opts["sqlalchemy_module_prefix"] or ""`. -/
def sqlaPref (ctx : AutogenContext) : String :=
  ctx.opts.sqlalchemyModulePrefix.getD ""

/-- `_alembic_autogenerate_prefix`: `"batch_op."` inside a batch block,
otherwise `opts["alembic_module_prefix"] or ""`. -/
def alembicPref (ctx : AutogenContext) : String :=
  if ctx.hasBatch then "batch_op." else ctx.opts.alembicModulePrefix.getD ""

/-- `_user_autogenerate_prefix(autogen_context, target)`:
`opts["user_module_prefix"]`, falling back to the target type's own
module path plus a dot. -/
def userPref (ctx : AutogenContext) (t : TypeDesc) : String :=
  match ctx.opts.userModulePrefix with
  | none => t.moduleOf ++ "."
  | some p => p

/-- Errors raised by the renderer: the dispatcher's error for an
unregistered operation kind (naming the unhandled object), the
`NotImplementedError`s, the `assert` failures, and the impossible
dictionary miss in variant rendering. -/
inductive RErr where
  | dispatchError (objRepr : String)
  | notImplementedError (msg : String)
  | assertionError
  | keyError
  | attributeError
deriving Repr, DecidableEq

/-! ## Sorting and small Python-semantics helpers -/

/-- Python string `<=` (codepoint-lexicographic), used by `sorted(...)`. -/
def pyStrLeL : List Char → List Char → Bool
  | [], _ => true
  | _ :: _, [] => false
  | a :: as, b :: bs =>
    if a.val < b.val then true
    else if b.val < a.val then false
    else pyStrLeL as bs

/-- Python `sorted` on strings. -/
def sortStrings (l : List String) : List String :=
  l.mergeSort (fun a b => pyStrLeL a.data b.data)

/-- Python dict lookup `mapping[k]` over an association list (the model of
`Variant.mapping`). -/
def dictGet : List (String × TypeDesc) → String → Option TypeDesc
  | [], _ => none
  | (k, v) :: rest, key => if k = key then some v else dictGet rest key

/-- `\w` (word character) of the `re` module, ASCII view. -/
def isWordChar (c : Char) : Bool := c.isAlphanum || c = '_'

/-- The group of `re.match(r"sqlalchemy\.dialects\.(\w+)", mod)`:
the maximal word-character run after the literal prefix, `none` when the
pattern does not match (which makes the source's `assert` fail). -/
def dialectName (mod : String) : Option String :=
  if "sqlalchemy.dialects.".data.isPrefixOf mod.data then
    let rest := (mod.data.drop 20).takeWhile isWordChar
    if rest = [] then none else some (String.mk rest)
  else none

/-- One scan step of
`re.sub(regexp + inner_repr, r"\1" + sub_type, outer_repr)` with
`regexp = r"(.+?\()"` (from `_render_type_w_subtype`): each non-overlapping
occurrence of `inner` that sits right after a `(` which itself has at
least one character before it (since the scan start) is replaced by `sub`.
`seen` records whether a character precedes the current position. -/
def subParenGo (inner sub : List Char) : Bool → List Char → List Char
  | _, [] => []
  | seen, c :: rest =>
    if seen ∧ c = '(' ∧ inner.isPrefixOf rest then
      c :: (sub ++ subParenGo inner sub false (rest.drop inner.length))
    else
      c :: subParenGo inner sub true rest
termination_by _ l => l.length
decreasing_by
  · simp
    omega
  · simp

/-- The repr-patching step of `_render_type_w_subtype`: substitute the
rendered inner type in place of the inner type's `repr` inside the outer
type's `repr`. -/
def subParenInner (outerRepr innerRepr subType : String) : String :=
  String.mk (subParenGo innerRepr.data subType.data false outerRepr.data)

/-! ## The type renderer (`_repr_type` and friends) -/

/-- The non-recursive resolution steps of `_repr_type(type_, ctx)`, in
source order: the `render_item` user hook; the vendor-dialect namespace
branch (which records the dialect import and prefers the dialect
implementation's text); the dialect implementation's text for non-dialect
types; and the user-module fallback for types outside `sqlalchemy.`.
Returns `none` exactly when `_repr_type` proceeds to the structural
(`Variant`/`ARRAY`/plain-`sqlalchemy`) rendering. -/
def reprTypePre (t : TypeDesc) (ctx : AutogenContext) :
    Option (Except RErr (String × AutogenContext)) :=
  match userDefinedRender ("type") ctx with
  | some rendered => some (.ok (rendered, ctx))
  | none =>
    -- `impl_rt` is computed once up front in the source; it is pure, so
    -- reading it at each use below is equivalent
    if "sqlalchemy.dialects".data.isPrefixOf t.moduleOf.data then
      some (match dialectName t.moduleOf with
      | none => .error .assertionError
      | some dname =>
        match ctx.implRenderType t with
        | some r => .ok (r, ctx.withImport ("from sqlalchemy.dialects import " ++ dname))
        | none => .ok (dname ++ "." ++ t.reprOf,
            ctx.withImport ("from sqlalchemy.dialects import " ++ dname)))
    else
      match ctx.implRenderType t with
      | some r => some (.ok (r, ctx))
      | none =>
        if "sqlalchemy.".data.isPrefixOf t.moduleOf.data then none
        else some (.ok (userPref ctx t ++ t.reprOf, ctx))

mutual

/-- `_repr_type(type_, autogen_context)`: the pre-dispatch steps of
`reprTypePre`, then the structural rendering (the `Variant` chain, the
specialized `_render_ARRAY_type`, or the plain `sqlalchemy` prefix
fallback). -/
def reprTypeCore (t : TypeDesc) (ctx : AutogenContext) : Except RErr (String × AutogenContext) :=
  (reprTypePre t ctx).getD
    (match t with
     | .variant impl mapping _r => do
       let pr ← reprTypeCore impl ctx
       -- `assert base is not None and base is not False` holds: `pr.1` is a string here
       variantChain mapping (sortStrings (mapping.map Prod.fst)) pr.1 pr.2
     | .base m vn r item =>
       if vn = "ARRAY" then
         -- `_render_ARRAY_type`: `cast(str, _render_type_w_subtype(...))`
         renderTypeWSubtype (.base m vn r item) ctx
       else .ok (sqlaPref ctx ++ (TypeDesc.base m vn r item).reprOf, ctx))
termination_by (sizeOf t, 2)
decreasing_by
  · exact Prod.Lex.left _ _ (by simp; omega)
  · exact Prod.Lex.left _ _ (by simp; omega)
  · exact Prod.Lex.right _ (by omega)

/-- `_render_type_w_subtype(type_, ctx, "item_type", r"(.+?\()")` as called
from `_render_ARRAY_type`.  A missing `item_type` yields Python `False`
and an unrecognized module yields Python `None`; both are then passed
through `cast(str, ...)` and interpolated with `%s` by every caller, so
they are modelled as the strings `"False"` / `"None"`. -/
def renderTypeWSubtype (t : TypeDesc) (ctx : AutogenContext) : Except RErr (String × AutogenContext) :=
  match t with
  | .variant _ _ _ => .ok ("False", ctx)
  | .base m _ outerRepr itemType =>
    match itemType with
    | none => .ok ("False", ctx)
    | some inner => do
      let pr ← reprTypeCore inner ctx
      -- `outer_type` is `subParenInner outerRepr inner.reprOf pr.1`;
      -- the `prefix` parameter is `None` at this call site
      if "sqlalchemy.dialects".data.isPrefixOf m.data then
        match dialectName m with
        | none => .error .assertionError
        | some dname => .ok (dname ++ "." ++ subParenInner outerRepr inner.reprOf pr.1, pr.2)
      else if "sqlalchemy".data.isPrefixOf m.data then
        .ok (sqlaPref pr.2 ++ subParenInner outerRepr inner.reprOf pr.1, pr.2)
      else
        .ok ("None", pr.2)
termination_by (sizeOf t, 1)
decreasing_by
  · exact Prod.Lex.left _ _ (by simp; omega)

/-- The loop of `_render_Variant_type`: chain one
`.with_variant(<type>, '<dialect>')` call per dialect, dialects in
lexical order. -/
def variantChain (mapping : List (String × TypeDesc)) (keys : List String) (acc : String)
    (ctx : AutogenContext) : Except RErr (String × AutogenContext) :=
  match keys with
  | [] => .ok (acc, ctx)
  | k :: ks =>
    match hget : dictGet mapping k with
    | none => .error .keyError
    | some typ => do
      let pr ← reprTypeCore typ ctx
      variantChain mapping ks (acc ++ ".with_variant(" ++ pr.1 ++ ", " ++ pyReprStr k ++ ")") pr.2
termination_by (sizeOf mapping, keys.length)
decreasing_by
  · refine Prod.Lex.left _ _ ?_
    induction mapping with
    | nil => simp [dictGet] at hget
    | cons p rest ih =>
      obtain ⟨k', v'⟩ := p
      by_cases hk : k' = k
      · simp [dictGet, hk] at hget
        subst hget
        simp
        omega
      · simp [dictGet, hk] at hget
        have := ih hget
        simp
        omega
  · exact Prod.Lex.right _ (by simp)

end

/-! ## Expression, server-default and column renderers -/

/-- A value rendered by `_render_potential_expr`: a SQL `ClauseElement`
(whose stringification by the external dialect collaborator
`impl.render_ddl_sql_expr` is carried as data in `ddlSql`), or any other
Python value, carried by its `repr`. -/
inductive PVal where
  | clause (ddlSql : String)
  | lit (reprStr : String)

/-- `_render_potential_expr(value, autogen_context, wrap_in_text)`: wrap a
clause's dialect-rendered SQL in a `text(...)` call (or just `repr` it
when `wrap_in_text` is false); other values render as their `repr`.
The `is_server_default` flag is consumed only by the external
collaborator, whose output `ddlSql` already carries. -/
def renderPotentialExpr (v : PVal) (ctx : AutogenContext) (wrapInText : Bool := true) : String :=
  match v with
  | .clause ddl =>
    if wrapInText then sqlaPref ctx ++ "text(" ++ pyReprStr ddl ++ ")" else pyReprStr ddl
  | .lit r => r

/-- A server-default value as classified by `_render_server_default`:
a plain string, a `TextClause`/`ColumnElement` given directly (`strConv`
is its Python `str()`), a `DefaultClause` with a string or expression
argument, a `Computed`, or an `Identity` (whose non-absent option
attributes are carried pre-stringified in attribute order, modelling
`_get_identity_options` over `sqla_compat._identity_options_attrs`). -/
inductive ServerDefault where
  | str (s : String)
  | clause (ddlSql : String) (strConv : String)
  | defaultClauseStr (arg : String)
  | defaultClauseExpr (argDdl : String)
  | computed (sqlDdl : String) (persisted : Option Bool)
  | identity (always : Option Bool) (onNull : Option Bool) (moreOpts : List (String × String))

/-- Python truthiness of a server-default value (only the empty string is
falsy among the modelled values). -/
def sdTruthy : ServerDefault → Bool
  | .str s => s ≠ ""
  | _ => true

/-- `_should_render_server_default_positionally`: `Computed` and
`Identity` render as positional `Column` arguments. -/
def shouldRenderPositionally : ServerDefault → Bool
  | .computed _ _ => true
  | .identity _ _ _ => true
  | _ => false

/-- `re.sub(r"^'|'$", "", default)`: strip one leading and one trailing
single quote. -/
def stripOuterSQ (s : String) : String :=
  let q : Char := Char.ofNat 39
  let d1 := match s.data with
    | [] => []
    | c :: rest => if c = q then rest else c :: rest
  let d2 := if d1.getLastD 'x' = q then d1.dropLast else d1
  String.mk d2

/-- `_render_computed`: constructor call carrying the raw expression text
(`_render_potential_expr` with `wrap_in_text=False`) plus the optional
persistence flag. -/
def renderComputed (sqlDdl : String) (persisted : Option Bool) (ctx : AutogenContext) : String :=
  let kwargs := match persisted with
    | some b => "persisted=" ++ pyBoolStr b
    | none => ""
  sqlaPref ctx ++ "Computed(" ++ pyReprStr sqlDdl ++ ", " ++ kwargs ++ ")"

/-- `_render_identity`: `always` is always emitted (even `None`/`False`),
then `on_null` when present, then the remaining non-absent identity
options. -/
def renderIdentity (always onNull : Option Bool) (moreOpts : List (String × String))
    (ctx : AutogenContext) : String :=
  let kwargs := [("always", pyOptBoolStr always)]
    ++ (match onNull with | some b => [("on_null", pyBoolStr b)] | none => [])
    ++ moreOpts
  sqlaPref ctx ++ "Identity(" ++
    String.intercalate ", " (kwargs.map (fun p => p.1 ++ "=" ++ p.2)) ++ ")"

/-- `_render_server_default(default, autogen_context, repr_)` for a
non-`None` default. -/
def renderServerDefault (d : ServerDefault) (ctx : AutogenContext) (repr_ : Bool := true) :
    Option String :=
  match userDefinedRender ("server_default") ctx with
  | some r => some r
  | none =>
    match d with
    | .computed sql p => some (renderComputed sql p ctx)
    | .identity a o m => some (renderIdentity a o m ctx)
    | .defaultClauseExpr ddl => some (renderPotentialExpr (.clause ddl) ctx)
    | .defaultClauseStr s => some (if repr_ then pyReprStr (stripOuterSQ s) else s)
    | .str s => some (if repr_ then pyReprStr (stripOuterSQ s) else s)
    | .clause _ sc => some sc

/-- `_render_server_default` on an `Optional` default: `None` falls
through every `isinstance` check and is returned unchanged (after the
user hook got its chance). -/
def renderServerDefaultOpt (d : Option ServerDefault) (ctx : AutogenContext) : Option String :=
  match d with
  | none =>
    match userDefinedRender ("server_default") ctx with
    | some r => some r
    | none => none
  | some sd => renderServerDefault sd ctx

/-- A column descriptor (`Column`): the fields `_render_column` reads.
`autoincrement = none` models the `AUTOINCREMENT_DEFAULT` (`"auto"`)
sentinel; `kwargs` models the dialect keyword arguments
(`sqla_compat._column_kwargs`). -/
structure ColumnDef where
  name : String
  type : TypeDesc
  serverDefault : Option ServerDefault
  autoincrement : Option Bool
  nullable : Option Bool
  system : Bool
  comment : Option String
  kwargs : List (String × PVal)

/-- `_render_column(column, autogen_context)`. -/
def renderColumn (column : ColumnDef) (ctx : AutogenContext) :
    Except RErr (String × AutogenContext) :=
  match userDefinedRender ("column") ctx with
  | some rendered => .ok (rendered, ctx)
  | none => do
    let sdRendered : Option String :=
      match column.serverDefault with
      | some sd => if sdTruthy sd then renderServerDefault sd ctx else none
      | none => none
    let sdPositional :=
      match column.serverDefault with
      | some sd => shouldRenderPositionally sd
      | none => false
    let args : List String :=
      match sdRendered with
      | some r => if (r != "") && sdPositional then [r] else []
      | none => []
    let opts : List (String × String) :=
      (match sdRendered with
       | some r => if (r != "") && !sdPositional then [("server_default", r)] else []
       | none => [])
      ++ (match column.autoincrement with
          | some b => [("autoincrement", pyBoolStr b)]
          | none => [])
      ++ (match column.nullable with
          | some b => [("nullable", pyBoolStr b)]
          | none => [])
      ++ (if column.system then [("system", "True")] else [])
      ++ (match column.comment with
          | some c => if c ≠ "" then [("comment", pyReprStr c)] else []
          | none => [])
    let tpr ← reprTypeCore column.type ctx
    let argsStr := if args ≠ [] then String.intercalate ", " args ++ ", " else ""
    let kwargsStr := String.intercalate ", "
      (opts.map (fun p => p.1 ++ "=" ++ p.2)
        ++ column.kwargs.map (fun p => p.1 ++ "=" ++ renderPotentialExpr p.2 ctx))
    .ok (sqlaPref ctx ++ "Column(" ++ pyReprStr column.name ++ ", " ++ tpr.1 ++ ", " ++
      argsStr ++ kwargsStr ++ ")", tpr.2)

/-! ## Constraint descriptors and the constraint renderer -/

/-- A constraint name: a plain user-given name, or a naming-convention
(`conv`) generated name, which `_render_gen_name` wraps in an
`f(...)` call (`_f_name`). -/
inductive CName where
  | plain (s : String)
  | conv (s : String)

/-- Python truthiness of an optional constraint name. -/
def cnameTruthy : Option CName → Bool
  | none => false
  | some (.plain s) => s ≠ ""
  | some (.conv s) => s ≠ ""

/-- `repr(_render_gen_name(autogen_context, name))`: convention names
render as `<prefix>f('<name>')` (the `repr` of `_f_name`), plain names as
their string `repr`, and `None` as `None`. -/
def reprGenName (ctx : AutogenContext) : Option CName → String
  | none => "None"
  | some (.plain s) => pyReprStr s
  | some (.conv s) => alembicPref ctx ++ "f(" ++ pyReprStr s ++ ")"

/-- One element of a foreign-key constraint: the local (`parent`) column
name plus the fields `_fk_colspec` reads from the `ForeignKey`
(`link_to_name`, resolvability of `fk.parent`/`fk.parent.table`, and the
raw `_get_colspec()` text). -/
structure FKElem where
  parentColName : String
  linkToName : Bool
  parentResolvable : Bool
  colspec : String

/-- A table of the namespace metadata: its `.c` collection as
(key, name) pairs (`c.get(colname)` looks up by key; the rendered name is
`col.name`). -/
structure MetaTable where
  columns : List (String × String)
deriving DecidableEq

/-- The enclosing namespace `MetaData`: its `schema` and its `tables`
dictionary keyed by full table name. -/
structure NamespaceMeta where
  schema : Option String
  tables : List (String × MetaTable)

/-- Dictionary lookup in `namespace_metadata.tables`. -/
def tableGet : List (String × MetaTable) → String → Option MetaTable
  | [], _ => none
  | (k, v) :: rest, key => if k = key then some v else tableGet rest key

/-- `table.c.get(colname)`: look up a column by key, returning its name. -/
def colGet : List (String × String) → String → Option String
  | [], _ => none
  | (k, v) :: rest, key => if k = key then some v else colGet rest key

/-- Python `colspec.split(".")` (modelled character by character). -/
def splitDotL : List Char → List (List Char)
  | [] => [[]]
  | c :: rest =>
    if c = '.' then [] :: splitDotL rest
    else
      match splitDotL rest with
      | [] => [[c]]
      | h :: t => (c :: h) :: t

/-- `colspec.split(".")` on strings. -/
def pySplitDot (s : String) : List String :=
  (splitDotL s.data).map (fun l => String.mk l)

/-- Python `".".join(...)`. -/
def joinDotS : List String → String
  | [] => ""
  | x :: [] => x
  | x :: y :: ys => x ++ "." ++ joinDotS (y :: ys)

/-- The token list `colspec.split(".")` of a foreign key's reference. -/
def fkTokens (fk : FKElem) : List String := pySplitDot fk.colspec

/-- `tokens[-2]`, the remote table name token. -/
def fkTname (tokens : List String) : String := tokens.getD (tokens.length - 2) ""

/-- The remote table's full name as computed by `_fk_colspec`: a bare
(2-token) reference is qualified with the metadata schema when one is
set; otherwise the reference's own table part is kept. -/
def fkTableFullname (tokens : List String) (metadataSchema : Option String) : String :=
  match metadataSchema with
  | some ms => if tokens.length = 2 then ms ++ "." ++ fkTname tokens else joinDotS tokens.dropLast
  | none => joinDotS tokens.dropLast

/-- The column-name part of `_fk_colspec`'s result: the last token of the
reference, replaced by the resolved column's logical name (`col.name`,
via `_ident`) when `link_to_name` is unset, the fk's parent side is
resolvable, and the remote table and column are found in the namespace
metadata. -/
def fkResolvedColname (fk : FKElem) (metadataSchema : Option String)
    (nm : NamespaceMeta) : String :=
  if ¬ fk.linkToName ∧ fk.parentResolvable then
    match tableGet nm.tables (fkTableFullname (fkTokens fk) metadataSchema) with
    | some tbl =>
      match colGet tbl.columns ((fkTokens fk).getLastD "") with
      | some colName => colName
      | none => (fkTokens fk).getLastD ""
    | none => (fkTokens fk).getLastD ""
  else (fkTokens fk).getLastD ""

/-- `_fk_colspec(fk, metadata_schema, namespace_metadata)`: the 'safe'
colspec that resolves the remote column through the namespace metadata
when possible and never fails. -/
def fkColspec (fk : FKElem) (metadataSchema : Option String) (nm : NamespaceMeta) : String :=
  fkTableFullname (fkTokens fk) metadataSchema ++ "." ++
    fkResolvedColname fk metadataSchema nm

/-- A `ForeignKeyConstraint` descriptor. -/
structure FKConstraint where
  name : Option CName
  elements : List FKElem
  onupdate : Option String
  ondelete : Option String
  initially : Option String
  deferrable : Option Bool
  useAlter : Bool

/-- `_populate_render_fk_opts`: keyword options of a rendered foreign-key
constraint, in source order, values `repr`ed. -/
def populateRenderFkOpts (c : FKConstraint) : List String :=
  (if strTruthy c.onupdate then ["onupdate=" ++ pyReprOptStr c.onupdate] else [])
  ++ (if strTruthy c.ondelete then ["ondelete=" ++ pyReprOptStr c.ondelete] else [])
  ++ (if strTruthy c.initially then ["initially=" ++ pyReprOptStr c.initially] else [])
  ++ (if c.deferrable = some true then ["deferrable=" ++ "True"] else [])
  ++ (if c.useAlter then ["use_alter=" ++ "True"] else [])

/-- A `UniqueConstraint` descriptor (with its table's name and schema,
read by the standalone-operation rendering form). -/
structure UqConstraint where
  name : Option CName
  columns : List String
  deferrable : Option Bool
  initially : Option String
  tableName : String
  tableSchema : Option String

/-- `_uq_constraint(constraint, autogen_context, alter)`: the
`create_unique_constraint(...)` operation form (`alter = true`) or the
inline `UniqueConstraint(...)` form (`alter = false`).  The keyword
options are `repr`ed by the `"%s=%r"` interpolation, which is why e.g. a
truthy `deferrable` renders as `deferrable='True'`. -/
def uqConstraintText (constraint : UqConstraint) (ctx : AutogenContext) (alter : Bool) : String :=
  let hasBatch := ctx.hasBatch
  let opts : List String :=
    (if constraint.deferrable = some true then ["deferrable=" ++ pyReprStr "True"] else [])
    ++ (if strTruthy constraint.initially then
          ["initially=" ++ pyReprStr (constraint.initially.getD "")] else [])
    ++ (if ¬ hasBatch ∧ alter ∧ strTruthy constraint.tableSchema then
          ["schema=" ++ pyReprOptStr constraint.tableSchema] else [])
    ++ (if ¬ alter ∧ cnameTruthy constraint.name then
          ["name=" ++ reprGenName ctx constraint.name] else [])
  if alter then
    let args := [reprGenName ctx constraint.name]
      ++ (if ¬ hasBatch then [pyReprStr constraint.tableName] else [])
      ++ [pyReprStrList constraint.columns] ++ opts
    alembicPref ctx ++ "create_unique_constraint(" ++ String.intercalate ", " args ++ ")"
  else
    let args := constraint.columns.map pyReprStr ++ opts
    sqlaPref ctx ++ "UniqueConstraint(" ++ String.intercalate ", " args ++ ")"

/-- A `CheckConstraint` descriptor; `fromTypeRule` models a `_create_rule`
whose target is a `TypeEngine` (a by-product of a column type, skipped by
the renderer). -/
structure CheckConstraintDef where
  name : Option CName
  sqltext : PVal
  fromTypeRule : Bool

/-- A table-level constraint, as dispatched by `_constraint_renderers`.
`unregistered` stands for any constraint class with no registered
renderer. -/
inductive Constraint where
  | primaryKey (name : Option CName) (columns : List String)
  | foreignKey (c : FKConstraint)
  | unique (c : UqConstraint)
  | check (c : CheckConstraintDef)
  | unregistered (objRepr : String)

/-- `_render_primary_key`: absent when the constraint has no columns. -/
def renderPrimaryKey (name : Option CName) (columns : List String) (ctx : AutogenContext) :
    Option String :=
  match userDefinedRender ("primary_key") ctx with
  | some r => some r
  | none =>
    if columns = [] then none
    else
      let opts := if cnameTruthy name then ["name=" ++ reprGenName ctx name] else []
      some (sqlaPref ctx ++ "PrimaryKeyConstraint(" ++
        String.intercalate ", " (columns.map pyReprStr ++ opts) ++ ")")

/-- `_render_foreign_key`: inline `ForeignKeyConstraint(...)` text, remote
references resolved through `_fk_colspec`. -/
def renderForeignKeyCons (c : FKConstraint) (ctx : AutogenContext) (nm : NamespaceMeta) :
    Option String :=
  match userDefinedRender ("foreign_key") ctx with
  | some r => some r
  | none =>
    let opts := (if cnameTruthy c.name then ["name=" ++ reprGenName ctx c.name] else [])
      ++ populateRenderFkOpts c
    some (sqlaPref ctx ++ "ForeignKeyConstraint([" ++
      String.intercalate ", " (c.elements.map (fun f => pyReprStr f.parentColName)) ++ "], [" ++
      String.intercalate ", " (c.elements.map (fun f => pyReprStr (fkColspec f nm.schema nm))) ++
      "], " ++ String.intercalate ", " opts ++ ")")

/-- `_render_check_constraint`: absent for type-generated check
constraints, otherwise an inline `CheckConstraint(...)`. -/
def renderCheckCons (c : CheckConstraintDef) (ctx : AutogenContext) : Option String :=
  match userDefinedRender ("check") ctx with
  | some r => some r
  | none =>
    if c.fromTypeRule then none
    else
      let opts := if cnameTruthy c.name then ["name=" ++ reprGenName ctx c.name] else []
      some (sqlaPref ctx ++ "CheckConstraint(" ++ renderPotentialExpr c.sqltext ctx false ++
        (if opts ≠ [] then ", " ++ String.intercalate ", " opts else "") ++ ")")

/-- `_render_constraint(constraint, autogen_context, namespace_metadata)`.
The constraint dispatcher's miss (a `ValueError`, modelled from the spec:
`util.Dispatcher` is not under `src/` and the spec states unregistered
kinds fail with a dispatch error naming the unhandled type) is caught
here: the renderer warns and degrades to a placeholder string; the
returned pair is (rendered text or `None`, warnings emitted).  A foreign
key rendered with no namespace metadata reads `.schema` off `None` and
fails. -/
def renderConstraint (constraint : Constraint) (ctx : AutogenContext)
    (nsMeta : Option NamespaceMeta) : Except RErr (Option String × List String) :=
  match constraint with
  | .unregistered objRepr =>
    .ok (some ("[Unknown Python object " ++ objRepr ++ "]"),
         ["No renderer is established for object " ++ objRepr])
  | .primaryKey name columns => .ok (renderPrimaryKey name columns ctx, [])
  | .foreignKey c =>
    match nsMeta with
    | none => .error .attributeError
    | some nm => .ok (renderForeignKeyCons c ctx nm, [])
  | .unique c =>
    match userDefinedRender ("unique") ctx with
    | some r => .ok (some r, [])
    | none => .ok (some (uqConstraintText c ctx false), [])
  | .check c => .ok (renderCheckCons c ctx, [])

/-! ## Operation descriptors -/

/-- `MAX_PYTHON_ARGS`: the positional-argument ceiling above which
`_add_table` switches to the unpacked-list call form. -/
def MAX_PYTHON_ARGS : Nat := 255

/-- The tri-state `modify_server_default` field of `AlterColumnOp`:
Python `False` is the "unspecified" sentinel; a specified value may
itself be `None` ("explicitly cleared"). -/
inductive TriSD where
  | unset
  | value (v : Option ServerDefault)

/-- The tri-state `modify_comment` field of `AlterColumnOp` (same
`False`-sentinel convention). -/
inductive TriComment where
  | unset
  | value (v : Option String)
deriving DecidableEq

/-- An `AlterColumnOp` descriptor.  `modify_nullable` and `modify_type`
use `None` as their "unspecified" sentinel; `autoincrement` models
`op.kw.get("autoincrement", None)`. -/
structure AlterColumnOp where
  tableName : String
  columnName : String
  modifyServerDefault : TriSD
  modifyType : Option TypeDesc
  modifyNullable : Option Bool
  modifyComment : TriComment
  autoincrement : Option Bool
  existingType : Option TypeDesc
  existingNullable : Option Bool
  existingComment : Option String
  existingServerDefault : Option ServerDefault
  schema : Option String

/-- One expression of an index (`idx.expressions`): a `Column` or a
general expression. -/
inductive IndexExpr where
  | column (name : String)
  | expr (v : PVal)

/-- The payload of an `ExecuteSQLOp`: plain literal text or a structured
SQL expression object (carried by its `repr`). -/
inductive SqlTextPayload where
  | str (s : String)
  | expr (objRepr : String)
deriving DecidableEq

/-- A migrate operation, as dispatched by the `renderers` dispatcher.
Composite fields mirror what each registered renderer reads off the op
(for `CreateTableOp`, `CreateIndexOp`, `DropIndexOp` and
`CreateUniqueConstraintOp` the `to_table`/`to_index`/`to_constraint`
reconstruction, which lives in the `ops` module outside `src/`, is
modelled by carrying the reconstructed structure directly).
`unregistered` stands for any `MigrateOperation` subclass with no
registered renderer. -/
inductive Op where
  | modifyTableOps (tableName : String) (schema : Option String) (children : List Op)
  | createTableComment (tableName : String) (comment : Option String)
      (existingComment : Option String) (schema : Option String)
  | dropTableComment (tableName : String) (existingComment : Option String)
      (schema : Option String)
  | createTable (tableName : String) (schema : Option String) (columns : List ColumnDef)
      (constraints : List Constraint) (comment : Option String) (kw : List (String × String))
      (tablePrefixes : List String) (nsMeta : Option NamespaceMeta)
  | dropTable (tableName : String) (schema : Option String)
  | createIndex (name : Option CName) (tableName : String) (tableSchema : Option String)
      (uniq : Option Bool) (expressions : List IndexExpr) (kwargs : List (String × PVal))
  | dropIndex (name : Option CName) (tableName : String) (schema : Option String)
      (kwargs : List (String × PVal))
  | createUniqueConstraint (c : UqConstraint)
  | createForeignKey (constraintName : Option CName) (sourceTable : String)
      (referentTable : String) (localCols : List String) (remoteCols : List String)
      (kw : List (String × Option String))
  | createPrimaryKey (constraintName : Option CName) (tableName : String)
      (schema : Option String) (columns : List String)
  | createCheckConstraint (constraintName : Option CName) (tableName : String)
      (schema : Option String) (conditionRepr : String)
  | dropConstraint (constraintName : Option CName) (tableName : String)
      (schema : Option String) (constraintType : Option String)
  | addColumn (schema : Option String) (tableName : String) (column : ColumnDef)
  | dropColumn (schema : Option String) (tableName : String) (columnName : String)
  | alterColumn (a : AlterColumnOp)
  | executeSql (sqltext : SqlTextPayload)
  | unregistered (objRepr : String)

/-! ## The per-operation renderers -/

/-- `_render_create_table_comment`. -/
def renderCreateTableComment (ctx : AutogenContext) (tableName : String)
    (comment existingComment schema : Option String) : String :=
  let ind := "    "
  alembicPref ctx ++ "create_table_comment(\n" ++
    ind ++ "'" ++ tableName ++ "',\n" ++
    ind ++ (match comment with | some c => pyReprStr c | none => "None") ++ ",\n" ++
    ind ++ "existing_comment=" ++
      (match existingComment with | some c => pyReprStr c | none => "None") ++ ",\n" ++
    ind ++ "schema=" ++
      (match schema with | some s => "'" ++ s ++ "'" | none => "None") ++ "\n)"

/-- `_render_drop_table_comment`. -/
def renderDropTableComment (ctx : AutogenContext) (tableName : String)
    (existingComment schema : Option String) : String :=
  let ind := "    "
  alembicPref ctx ++ "drop_table_comment(\n" ++
    ind ++ "'" ++ tableName ++ "',\n" ++
    ind ++ "existing_comment=" ++
      (match existingComment with | some c => pyReprStr c | none => "None") ++ ",\n" ++
    ind ++ "schema=" ++
      (match schema with | some s => "'" ++ s ++ "'" | none => "None") ++ "\n)"

/-- Render the columns of a table in order, threading the context. -/
def renderColumnList (columns : List ColumnDef) (ctx : AutogenContext) :
    Except RErr (List String × AutogenContext) :=
  match columns with
  | [] => .ok ([], ctx)
  | c :: rest => do
    let pr ← renderColumn c ctx
    let prs ← renderColumnList rest pr.2
    .ok (pr.1 :: prs.1, prs.2)

/-- Render the constraints of a table (dropping the `None` results, as
the `rcons is not None` filter does); warnings are emitted out-of-band
and dropped here. -/
def renderConstraintList (constraints : List Constraint) (ctx : AutogenContext)
    (nsMeta : Option NamespaceMeta) : Except RErr (List String) :=
  match constraints with
  | [] => .ok []
  | c :: rest => do
    let pr ← renderConstraint c ctx nsMeta
    let rs ← renderConstraintList rest ctx nsMeta
    .ok (match pr.1 with | some s => s :: rs | none => rs)

/-- The rendered positional arguments of `_add_table`: the non-empty
rendered columns in order, then the rendered constraints sorted by their
rendered text. -/
def createTableArgs (ctx : AutogenContext) (columns : List ColumnDef)
    (constraints : List Constraint) (nsMeta : Option NamespaceMeta) :
    Except RErr (List String × AutogenContext) := do
  let cpr ← renderColumnList columns ctx
  let rcons ← renderConstraintList constraints cpr.2 nsMeta
  .ok (cpr.1.filter (fun s => s ≠ "") ++ sortStrings rcons, cpr.2)

/-- The argument-list text of `_add_table`: above `MAX_PYTHON_ARGS`
arguments the flat comma-joined positional form switches to a single
unpacked-list argument. -/
def createTableArgsStr (args : List String) : String :=
  if args.length > MAX_PYTHON_ARGS then
    "*[" ++ String.intercalate ",\n" args ++ "]"
  else
    String.intercalate ",\n" args

/-- `_add_table(autogen_context, op)`. -/
def addTable (ctx : AutogenContext) (tableName : String) (schema : Option String)
    (columns : List ColumnDef) (constraints : List Constraint) (comment : Option String)
    (kw : List (String × String)) (tablePrefixes : List String)
    (nsMeta : Option NamespaceMeta) : Except RErr (String × AutogenContext) := do
  let apr ← createTableArgs ctx columns constraints nsMeta
  let ctx := apr.2
  let text := alembicPref ctx ++ "create_table(" ++ pyReprStr tableName ++ ",\n" ++
    createTableArgsStr apr.1
  let text := text ++ (match schema with
    | some s => if s ≠ "" then ",\nschema=" ++ pyReprStr s else ""
    | none => "")
  let text := text ++ (match comment with
    | some c => if c ≠ "" then ",\ncomment=" ++ pyReprStr c else ""
    | none => "")
  let text := text ++ String.join
    ((sortStrings (kw.map Prod.fst)).map (fun k =>
      ",\n" ++ String.mk (k.data.map (fun c => if c = ' ' then '_' else c)) ++ "=" ++
        (match colGet kw k with | some v => v | none => "")))
  let text := text ++ (if tablePrefixes ≠ [] then
    ",\nprefixes=[" ++ String.intercalate ", "
      (tablePrefixes.map (fun p => "'" ++ p ++ "'")) ++ "]"
    else "")
  .ok (text ++ "\n)", ctx)

/-- `_drop_table`. -/
def dropTableText (ctx : AutogenContext) (tableName : String) (schema : Option String) :
    String :=
  alembicPref ctx ++ "drop_table(" ++ pyReprStr tableName ++
    (match schema with
     | some s => if s ≠ "" then ", schema=" ++ pyReprStr s else ""
     | none => "") ++ ")"

/-- `_get_index_rendered_expressions`. -/
def indexRenderedExpressions (exprs : List IndexExpr) (ctx : AutogenContext) : List String :=
  exprs.map (fun e =>
    match e with
    | .column n => pyReprStr n
    | .expr v => renderPotentialExpr v ctx)

/-- The `, key=val` keyword tail shared by the index renderers. -/
def indexKwargsText (kwargs : List (String × PVal)) (ctx : AutogenContext) : String :=
  if kwargs.length ≠ 0 then
    ", " ++ String.intercalate ", "
      (kwargs.map (fun p => p.1 ++ "=" ++ renderPotentialExpr p.2 ctx))
  else ""

/-- `_add_index`. -/
def addIndexText (ctx : AutogenContext) (name : Option CName) (tableName : String)
    (tableSchema : Option String) (uniq : Option Bool) (expressions : List IndexExpr)
    (kwargs : List (String × PVal)) : String :=
  let columns := String.intercalate ", " (indexRenderedExpressions expressions ctx)
  if ctx.hasBatch then
    alembicPref ctx ++ "create_index(" ++ reprGenName ctx name ++ ", [" ++ columns ++
      "], unique=" ++ pyBoolStr (uniq.getD false) ++ indexKwargsText kwargs ctx ++ ")"
  else
    alembicPref ctx ++ "create_index(" ++ reprGenName ctx name ++ ", " ++
      pyReprStr tableName ++ ", [" ++ columns ++ "], unique=" ++
      pyBoolStr (uniq.getD false) ++
      (if strTruthy tableSchema then ", schema=" ++ pyReprOptStr tableSchema else "") ++
      indexKwargsText kwargs ctx ++ ")"

/-- `_drop_index`. -/
def dropIndexText (ctx : AutogenContext) (name : Option CName) (tableName : String)
    (schema : Option String) (kwargs : List (String × PVal)) : String :=
  if ctx.hasBatch then
    alembicPref ctx ++ "drop_index(" ++ reprGenName ctx name ++
      indexKwargsText kwargs ctx ++ ")"
  else
    alembicPref ctx ++ "drop_index(" ++ reprGenName ctx name ++ ", table_name=" ++
      pyReprStr tableName ++
      (if strTruthy schema then ", schema=" ++ pyReprOptStr schema else "") ++
      indexKwargsText kwargs ctx ++ ")"

/-- `_add_fk_constraint(autogen_context, op)`. -/
def addFkConstraintText (ctx : AutogenContext) (constraintName : Option CName)
    (sourceTable referentTable : String) (localCols remoteCols : List String)
    (kw : List (String × Option String)) : String :=
  let args0 := [reprGenName ctx constraintName]
    ++ (if ¬ ctx.hasBatch then [pyReprStr sourceTable] else [])
    ++ [pyReprStr referentTable, pyReprStrList localCols, pyReprStrList remoteCols]
  let keys := (if ¬ ctx.hasBatch then ["source_schema"] else [])
    ++ ["referent_schema", "onupdate", "ondelete", "initially", "deferrable", "use_alter"]
  let kwArgs := keys.filterMap (fun k =>
    match kw.lookup k with
    | some (some v) => some (k ++ "=" ++ v)
    | _ => none)
  alembicPref ctx ++ "create_foreign_key(" ++
    String.intercalate ", " (args0 ++ kwArgs) ++ ")"

/-- `_drop_constraint`. -/
def dropConstraintText (ctx : AutogenContext) (constraintName : Option CName)
    (tableName : String) (schema : Option String) (constraintType : Option String) : String :=
  if ctx.hasBatch then
    alembicPref ctx ++ "drop_constraint(" ++ reprGenName ctx constraintName ++
      ", type_=" ++ pyReprOptStr constraintType ++ ")"
  else
    alembicPref ctx ++ "drop_constraint(" ++ reprGenName ctx constraintName ++ ", '" ++
      tableName ++ "'" ++
      (if strTruthy schema then ", schema=" ++ pyReprOptStr schema else "") ++
      ", type_=" ++ pyReprOptStr constraintType ++ ")"

/-- `_add_column(autogen_context, op)`. -/
def addColumnRender (ctx : AutogenContext) (schema : Option String) (tableName : String)
    (column : ColumnDef) : Except RErr (String × AutogenContext) := do
  let pr ← renderColumn column ctx
  if pr.2.hasBatch then
    .ok (alembicPref pr.2 ++ "add_column(" ++ pr.1 ++ ")", pr.2)
  else
    .ok (alembicPref pr.2 ++ "add_column(" ++ pyReprStr tableName ++ ", " ++ pr.1 ++
      (if strTruthy schema then ", schema=" ++ pyReprOptStr schema else "") ++ ")", pr.2)

/-- `_drop_column`. -/
def dropColumnText (ctx : AutogenContext) (schema : Option String) (tableName : String)
    (columnName : String) : String :=
  if ctx.hasBatch then
    alembicPref ctx ++ "drop_column(" ++ pyReprStr columnName ++ ")"
  else
    alembicPref ctx ++ "drop_column(" ++ pyReprStr tableName ++ ", " ++
      pyReprStr columnName ++
      (if strTruthy schema then ", schema=" ++ pyReprOptStr schema else "") ++ ")"

/-! The segments of `_alter_column`, one definition per `text += ...` of
the source (each segment literal starts with `",\n"` and the source's
11-space `indent`). -/

/-- The opening `alter_column(...)` call of `_alter_column` (column only
inside a batch block, table and column otherwise). -/
def acBase (ctx : AutogenContext) (op : AlterColumnOp) : String :=
  if ctx.hasBatch then
    alembicPref ctx ++ ("alter_column(" ++ pyReprStr op.columnName)
  else
    alembicPref ctx ++ ("alter_column(" ++ pyReprStr op.tableName ++ ", " ++
      pyReprStr op.columnName)

/-- `existing_type=...`, appended whenever `existing_type` is not `None`. -/
def acEtSeg (ctx : AutogenContext) (op : AlterColumnOp) :
    Except RErr (List String × AutogenContext) :=
  match op.existingType with
  | none => .ok ([], ctx)
  | some t => do
    let pr ← reprTypeCore t ctx
    .ok ([",\n           existing_type=" ++ pr.1], pr.2)

/-- `server_default=...`, appended whenever `server_default` is not the
`False` sentinel. -/
def acSdSeg (ctx : AutogenContext) (op : AlterColumnOp) : List String :=
  match op.modifyServerDefault with
  | .unset => []
  | .value v =>
    [",\n           server_default=" ++ (renderServerDefaultOpt v ctx).getD "None"]

/-- `type_=...`, appended whenever `type_` is not `None`. -/
def acTySeg (ctx : AutogenContext) (op : AlterColumnOp) :
    Except RErr (List String × AutogenContext) :=
  match op.modifyType with
  | none => .ok ([], ctx)
  | some t => do
    let pr ← reprTypeCore t ctx
    .ok ([",\n           type_=" ++ pr.1], pr.2)

/-- `nullable=...`, appended whenever `nullable` is not `None`. -/
def acNuSeg (op : AlterColumnOp) : List String :=
  match op.modifyNullable with
  | some b => [",\n           nullable=" ++ pyBoolStr b]
  | none => []

/-- `comment=...`, appended whenever `comment` is not the `False`
sentinel. -/
def acCoSeg (op : AlterColumnOp) : List String :=
  match op.modifyComment with
  | .unset => []
  | .value v => [",\n           comment=" ++ pyReprOptStr v]

/-- `existing_comment=...`, appended whenever `existing_comment` is not
`None` (with no condition on `comment`). -/
def acEcSeg (op : AlterColumnOp) : List String :=
  match op.existingComment with
  | some c => [",\n           existing_comment=" ++ pyReprStr c]
  | none => []

/-- `existing_nullable=...`, appended only when `nullable` is `None` and
`existing_nullable` is not `None`. -/
def acEnSeg (op : AlterColumnOp) : List String :=
  match op.modifyNullable, op.existingNullable with
  | none, some b => [",\n           existing_nullable=" ++ pyBoolStr b]
  | _, _ => []

/-- `autoincrement=...`, appended whenever `op.kw` carries an
`autoincrement`. -/
def acAiSeg (op : AlterColumnOp) : List String :=
  match op.autoincrement with
  | some b => [",\n           autoincrement=" ++ pyBoolStr b]
  | none => []

/-- `existing_server_default=...`, appended only when `server_default` is
the `False` sentinel and `existing_server_default` is truthy. -/
def acEsdSeg (ctx : AutogenContext) (op : AlterColumnOp) : List String :=
  match op.modifyServerDefault, op.existingServerDefault with
  | .unset, some esd =>
    if sdTruthy esd then
      [",\n           existing_server_default=" ++ (renderServerDefault esd ctx).getD "None"]
    else []
  | _, _ => []

/-- `schema=...`, appended when a truthy schema is given outside a batch
block. -/
def acSchSeg (ctx : AutogenContext) (op : AlterColumnOp) : List String :=
  if strTruthy op.schema ∧ ¬ ctx.hasBatch then
    [",\n           schema=" ++ pyReprOptStr op.schema]
  else []

/-- `_alter_column(autogen_context, op)`, decomposed into the sequence of
string segments the source appends to `text` (one list element per
`text += ...`, ending with the closing parenthesis); `_alter_column`'s
result is their concatenation. -/
def alterColumnSegments (ctx : AutogenContext) (op : AlterColumnOp) :
    Except RErr (List String × AutogenContext) := do
  let et ← acEtSeg ctx op
  let ty ← acTySeg et.2 op
  .ok ([acBase ctx op] ++ et.1 ++ acSdSeg et.2 op ++ ty.1 ++ acNuSeg op ++ acCoSeg op ++
    acEcSeg op ++ acEnSeg op ++ acAiSeg op ++ acEsdSeg ty.2 op ++ acSchSeg ty.2 op ++ [")"],
    ty.2)

/-- `_alter_column`: the concatenated segment list. -/
def alterColumnRender (ctx : AutogenContext) (op : AlterColumnOp) :
    Except RErr (String × AutogenContext) := do
  let pr ← alterColumnSegments ctx op
  .ok (String.join pr.1, pr.2)

/-- `_execute_sql(autogen_context, op)`: only plain literal SQL text is
supported; a structured expression raises `NotImplementedError`.  The
successful output uses the fixed literal prefix `op.` (not
`_alembic_autogenerate_prefix`). -/
def executeSqlRender (op : SqlTextPayload) : Except RErr String :=
  match op with
  | .str s => .ok ("op.execute(" ++ pyReprStr s ++ ")")
  | .expr _ =>
    .error (.notImplementedError
      ("Autogenerate rendering of SQL Expression language constructs " ++
       "not supported here; please use a plain SQL string"))

/-! ## The top-level operation dispatcher -/

mutual

/-- `render_op(autogen_context, op)`: dispatch on the operation's runtime
kind and normalize the result to a list of lines (`util.to_list`).
The dispatcher miss for an unregistered kind is modelled from the spec
(`util.Dispatcher` is not under `src/`): unregistered kinds fail with a
dispatch error naming the unhandled type. -/
def renderOp (ctx : AutogenContext) (op : Op) : Except RErr (List String × AutogenContext) :=
  match op with
  | .modifyTableOps tableName schema children =>
    -- `_render_modify_table`
    if children.isEmpty then .ok ([], ctx)
    else if ctx.opts.renderAsBatch then do
      -- `_within_batch` (AutogenContext, not under src/) sets the flag and,
      -- per the spec, the prior state is restored on exit
      let pr ← renderOpChildren { ctx with hasBatch := true } children
      .ok (["with op.batch_alter_table(" ++ pyReprStr tableName ++ ", schema=" ++
            pyReprOptStr schema ++ ") as batch_op:"] ++ pr.1 ++ [""],
           { pr.2 with hasBatch := ctx.hasBatch })
    else
      renderOpChildren ctx children
  | .createTableComment tableName comment existingComment schema =>
    .ok ([renderCreateTableComment ctx tableName comment existingComment schema], ctx)
  | .dropTableComment tableName existingComment schema =>
    .ok ([renderDropTableComment ctx tableName existingComment schema], ctx)
  | .createTable tableName schema columns constraints comment kw tablePrefixes nsMeta => do
    let pr ← addTable ctx tableName schema columns constraints comment kw
      tablePrefixes nsMeta
    .ok ([pr.1], pr.2)
  | .dropTable tableName schema => .ok ([dropTableText ctx tableName schema], ctx)
  | .createIndex name tableName tableSchema uniq expressions kwargs =>
    .ok ([addIndexText ctx name tableName tableSchema uniq expressions kwargs], ctx)
  | .dropIndex name tableName schema kwargs =>
    .ok ([dropIndexText ctx name tableName schema kwargs], ctx)
  | .createUniqueConstraint c =>
    -- `_add_unique_constraint`: `[_uq_constraint(op.to_constraint(), ctx, True)]`
    .ok ([uqConstraintText c ctx true], ctx)
  | .createForeignKey constraintName sourceTable referentTable localCols remoteCols kw =>
    .ok ([addFkConstraintText ctx constraintName sourceTable referentTable localCols
          remoteCols kw], ctx)
  | .createPrimaryKey _ _ _ _ =>
    -- `_add_pk_constraint`: `raise NotImplementedError()`
    .error (.notImplementedError "")
  | .createCheckConstraint _ _ _ _ =>
    -- `_add_check_constraint`: `raise NotImplementedError()`
    .error (.notImplementedError "")
  | .dropConstraint constraintName tableName schema constraintType =>
    .ok ([dropConstraintText ctx constraintName tableName schema constraintType], ctx)
  | .addColumn schema tableName column => do
    let pr ← addColumnRender ctx schema tableName column
    .ok ([pr.1], pr.2)
  | .dropColumn schema tableName columnName =>
    .ok ([dropColumnText ctx schema tableName columnName], ctx)
  | .alterColumn a => do
    let pr ← alterColumnRender ctx a
    .ok ([pr.1], pr.2)
  | .executeSql payload => do
    let text ← executeSqlRender payload
    .ok ([text], ctx)
  | .unregistered objRepr => .error (.dispatchError objRepr)
termination_by sizeOf op
decreasing_by
  all_goals simp

/-- The child loop of `_render_modify_table`: render each child in order
and concatenate the lines. -/
def renderOpChildren (ctx : AutogenContext) (children : List Op) :
    Except RErr (List String × AutogenContext) :=
  match children with
  | [] => .ok ([], ctx)
  | c :: rest => do
    let pr ← renderOp ctx c
    let prs ← renderOpChildren pr.2 rest
    .ok (pr.1 ++ prs.1, prs.2)
termination_by sizeOf children
decreasing_by
  all_goals simp
  all_goals omega

end

/-- Render each operation of a container, keeping per-operation line
lists (the loop of `_render_cmd_body`). -/
def renderOpsSeq (ctx : AutogenContext) (opList : List Op) :
    Except RErr (List (List String) × AutogenContext) :=
  match opList with
  | [] => .ok ([], ctx)
  | o :: rest => do
    let pr ← renderOp ctx o
    let prs ← renderOpsSeq pr.2 rest
    .ok (pr.1 :: prs.1, prs.2)

/-- The leading marker comment written by `_render_cmd_body`. -/
def cmdMarkerLead : String := "# ### commands auto generated by Alembic - please adjust! ###"

/-- The trailing marker comment written by `_render_cmd_body`. -/
def cmdMarkerEnd : String := "# ### end Alembic commands ###"

/-- `_render_cmd_body(op_container, autogen_context)`, as the sequence of
lines handed to the printer: the leading marker, every rendered line of
every operation in order, a single `pass` when no operation produced any
line, and the trailing marker.  (The mako `PythonPrinter` collaborator,
which re-indents these lines into the final script text, is external.) -/
def renderCmdBody (ctx : AutogenContext) (containerOps : List Op) :
    Except RErr (List String × AutogenContext) := do
  let pr ← renderOpsSeq ctx containerOps
  .ok ([cmdMarkerLead] ++ pr.1.flatten ++
    (if pr.1.any (fun ls => !ls.isEmpty) then [] else ["pass"]) ++ [cmdMarkerEnd], pr.2)

/-- The `existing_nullable` keyword segment marker. -/
def enMarker : String := ",\n           existing_nullable="

/-- The `existing_server_default` keyword segment marker. -/
def esdMarker : String := ",\n           existing_server_default="

/-- The `existing_comment` keyword segment marker. -/
def ecMarker : String := ",\n           existing_comment="

/-- Some segment of `segs` starts with the marker `m`. -/
def segWithMarker (m : String) (segs : List String) : Prop :=
  ∃ s ∈ segs, m.data <+: s.data

/-- Truthiness of the optional `existing_server_default`. -/
def sdTruthyOpt : Option ServerDefault → Bool
  | some esd => sdTruthy esd
  | none => false

/-- `ctx'` differs from `ctx` at most by appending imports. -/
def importsOnlyExt (ctx ctx' : AutogenContext) : Prop :=
  ctx' = { ctx with imports := ctx'.imports } ∧ ctx.imports <+: ctx'.imports

/-! ## Concrete fixtures used by witnesses and counterexamples -/

/-- A context with the alembic default options (`op.` / `sa.` prefixes,
no batch mode, no user hook, no dialect impl renderer, empty imports). -/
def ctx0 : AutogenContext :=
  { opts :=
      { renderAsBatch := false
        alembicModulePrefix := some "op."
        sqlalchemyModulePrefix := some "sa."
        userModulePrefix := none
        renderItem := none }
    hasBatch := false
    imports := []
    implRenderType := fun _ => none }

/-- An `AlterColumnOp` with every field unset. -/
def acOpBlank : AlterColumnOp :=
  { tableName := "t"
    columnName := "c"
    modifyServerDefault := .unset
    modifyType := none
    modifyNullable := none
    modifyComment := .unset
    autoincrement := none
    existingType := none
    existingNullable := none
    existingComment := none
    existingServerDefault := none
    schema := none }

/-- An `AlterColumnOp` that supplies a new comment while an existing
comment is also present. -/
def acOpC2 : AlterColumnOp :=
  { acOpBlank with modifyComment := .value (some "new"), existingComment := some "old" }

/-- The segments `_alter_column` renders for `acOpC2`. -/
def segsC2 : List String :=
  ["op.alter_column('t', 'c'", ",\n           comment='new'",
   ",\n           existing_comment='old'", ")"]

/-- An `AlterColumnOp` matching the spec's example: `modify_nullable`
unsupplied, `existing_nullable=True`. -/
def acOpW : AlterColumnOp :=
  { acOpBlank with existingNullable := some true }

/-- The segments `_alter_column` renders for `acOpW`. -/
def segsW : List String :=
  ["op.alter_column('t', 'c'", ",\n           existing_nullable=True", ")"]

/-- A foreign key referencing `t1.c1` (2-token reference). -/
def fkC3 : FKElem :=
  { parentColName := "x", linkToName := false, parentResolvable := true, colspec := "t1.c1" }

/-- Namespace metadata with schema `s1` and no tables. -/
def nmC3 : NamespaceMeta := { schema := some "s1", tables := [] }

/-- A foreign key referencing `other.oid`. -/
def fkW : FKElem :=
  { parentColName := "x", linkToName := false, parentResolvable := true, colspec := "other.oid" }

/-- Namespace metadata holding table `other`, whose column with key
`oid` has the (differing) logical name `o_id`. -/
def nmW : NamespaceMeta :=
  { schema := none, tables := [("other", { columns := [("oid", "o_id")] })] }

/-- A vendor-dialect type (`postgresql.UUID`). -/
def uuidT : TypeDesc := .base "sqlalchemy.dialects.postgresql.base" "UUID" "UUID()" none

/-- The import line recorded for the `postgresql` dialect namespace. -/
def pgImport : String := "from sqlalchemy.dialects import postgresql"

/-- The context after the first dialect-type rendering. -/
def ctxPg : AutogenContext := { ctx0 with imports := [pgImport] }

/-! ## Context evolution: rendering can only append to the import set

The only mutation any renderer performs on the context is `imports.add`
(in `_repr_type`); everything else is read-only.  `importsOnlyExt ctx ctx'`
states that `ctx'` is `ctx` with a (possibly) extended import list. -/

theorem dictGet_sizeOf {mapping : List (String × TypeDesc)} {key : String} {v : TypeDesc}
    (h : dictGet mapping key = some v) : sizeOf v < sizeOf mapping := by
  induction mapping with
  | nil => simp [dictGet] at h
  | cons p rest ih =>
    obtain ⟨k, v'⟩ := p
    by_cases hk : k = key
    · simp [dictGet, hk] at h
      subst h
      simp
      omega
    · simp [dictGet, hk] at h
      have := ih h
      simp
      omega

theorem importsOnlyExt_refl (ctx : AutogenContext) : importsOnlyExt ctx ctx :=
  ⟨rfl, List.prefix_refl _⟩

theorem importsOnlyExt_trans {a b c : AutogenContext}
    (h1 : importsOnlyExt a b) (h2 : importsOnlyExt b c) : importsOnlyExt a c := by
  obtain ⟨e1, p1⟩ := h1
  obtain ⟨e2, p2⟩ := h2
  refine ⟨?_, p1.trans p2⟩
  rw [e2, e1]

theorem addImport_prefix (l : List String) (s : String) : l <+: addImport l s := by
  unfold addImport
  split
  · exact List.prefix_refl _
  · exact List.prefix_append _ _

theorem importsOnlyExt_withImport (ctx : AutogenContext) (s : String) :
    importsOnlyExt ctx (ctx.withImport s) :=
  ⟨rfl, addImport_prefix _ _⟩

/-- Reading the options through an imports-only evolution. -/
theorem importsOnlyExt_opts {a b : AutogenContext} (h : importsOnlyExt a b) :
    b.opts = a.opts := by rw [h.1]

/-- Reading the batch flag through an imports-only evolution. -/
theorem importsOnlyExt_hasBatch {a b : AutogenContext} (h : importsOnlyExt a b) :
    b.hasBatch = a.hasBatch := by rw [h.1]

theorem exbind_error {α β : Type} (e : RErr) (f : α → Except RErr β) :
    ((Except.error e : Except RErr α) >>= f) = .error e := rfl

theorem exbind_ok {α β : Type} (a : α) (f : α → Except RErr β) :
    ((Except.ok a : Except RErr α) >>= f) = f a := rfl

theorem reprTypePre_ext (t : TypeDesc) (ctx : AutogenContext) (res : String × AutogenContext)
    (h : reprTypePre t ctx = some (.ok res)) : importsOnlyExt ctx res.2 := by
  unfold reprTypePre at h
  split at h
  · injection h with h
    cases h
    exact importsOnlyExt_refl ctx
  · split at h
    · injection h with h
      split at h
      · exact absurd h (by simp)
      · split at h
        · cases h
          exact importsOnlyExt_withImport ctx _
        · cases h
          exact importsOnlyExt_withImport ctx _
    · split at h
      · injection h with h
        cases h
        exact importsOnlyExt_refl ctx
      · split at h
        · exact absurd h (by simp)
        · injection h with h
          cases h
          exact importsOnlyExt_refl ctx


mutual

theorem reprTypeCore_ext (t : TypeDesc) (ctx : AutogenContext) (res : String × AutogenContext)
    (h : reprTypeCore t ctx = .ok res) : importsOnlyExt ctx res.2 := by
  unfold reprTypeCore at h
  cases hpre : reprTypePre t ctx with
  | some r =>
    rw [hpre] at h
    simp only [Option.getD_some] at h
    subst h
    exact reprTypePre_ext t ctx res hpre
  | none =>
    rw [hpre] at h
    simp only [Option.getD_none] at h
    split at h
    · rename_i impl mapping _r
      cases hrec : reprTypeCore impl ctx with
      | error e =>
        rw [hrec, exbind_error] at h
        simp at h
      | ok p =>
        rw [hrec, exbind_ok] at h
        obtain ⟨base, ctx1⟩ := p
        exact importsOnlyExt_trans (reprTypeCore_ext impl ctx _ hrec)
          (variantChain_ext _ _ _ _ _ h)
    · rename_i m vn r item
      split at h
      · exact renderTypeWSubtype_ext _ _ _ h
      · cases h
        exact importsOnlyExt_refl ctx
termination_by (sizeOf t, 2)
decreasing_by
  all_goals subst_vars
  · exact Prod.Lex.left _ _ (by simp; omega)
  · exact Prod.Lex.left _ _ (by simp; omega)
  · exact Prod.Lex.right _ (by omega)

theorem renderTypeWSubtype_ext (t : TypeDesc) (ctx : AutogenContext)
    (res : String × AutogenContext) (h : renderTypeWSubtype t ctx = .ok res) :
    importsOnlyExt ctx res.2 := by
  unfold renderTypeWSubtype at h
  split at h
  · cases h
    exact importsOnlyExt_refl ctx
  · split at h
    · cases h
      exact importsOnlyExt_refl ctx
    · rename_i inner
      cases hrec : reprTypeCore inner ctx with
      | error e =>
        rw [hrec, exbind_error] at h
        simp at h
      | ok p =>
        rw [hrec, exbind_ok] at h
        obtain ⟨subType, ctx1⟩ := p
        have hp := reprTypeCore_ext inner ctx _ hrec
        split at h
        · split at h
          · exact absurd h (by simp)
          · cases h
            exact hp
        · split at h
          · cases h
            exact hp
          · cases h
            exact hp
termination_by (sizeOf t, 1)
decreasing_by
  all_goals subst_vars
  · exact Prod.Lex.left _ _ (by simp; omega)

theorem variantChain_ext (mapping : List (String × TypeDesc)) (keys : List String)
    (acc : String) (ctx : AutogenContext) (res : String × AutogenContext)
    (h : variantChain mapping keys acc ctx = .ok res) : importsOnlyExt ctx res.2 := by
  unfold variantChain at h
  split at h
  · cases h
    exact importsOnlyExt_refl ctx
  · split at h
    · exact absurd h (by simp)
    · rename_i typ hget
      cases hrec : reprTypeCore typ ctx with
      | error e =>
        rw [hrec, exbind_error] at h
        simp at h
      | ok p =>
        rw [hrec, exbind_ok] at h
        obtain ⟨s, ctx1⟩ := p
        exact importsOnlyExt_trans (reprTypeCore_ext typ ctx _ hrec)
          (variantChain_ext mapping _ _ _ _ h)
termination_by (sizeOf mapping, keys.length)
decreasing_by
  all_goals subst_vars
  · exact Prod.Lex.left _ _ (dictGet_sizeOf (by assumption))
  · exact Prod.Lex.right _ (by simp)

end

theorem bind_eq_ok {α γ : Type} {x : Except RErr α} {f : α → Except RErr γ} {res : γ}
    (h : (x >>= f) = .ok res) : ∃ a, x = .ok a ∧ f a = .ok res := by
  cases x with
  | error e => exact Except.noConfusion h
  | ok a => exact ⟨a, rfl, h⟩

theorem renderColumn_ext (c : ColumnDef) (ctx : AutogenContext) (res : String × AutogenContext)
    (h : renderColumn c ctx = .ok res) : importsOnlyExt ctx res.2 := by
  unfold renderColumn at h
  split at h
  · cases h
    exact importsOnlyExt_refl ctx
  · obtain ⟨pr, hx, h⟩ := bind_eq_ok h
    cases h
    exact reprTypeCore_ext _ _ pr hx

theorem renderColumnList_ext (columns : List ColumnDef) (ctx : AutogenContext)
    (res : List String × AutogenContext) (h : renderColumnList columns ctx = .ok res) :
    importsOnlyExt ctx res.2 := by
  induction columns generalizing ctx res with
  | nil =>
    unfold renderColumnList at h
    cases h
    exact importsOnlyExt_refl ctx
  | cons c rest ih =>
    unfold renderColumnList at h
    obtain ⟨pr, hx, h⟩ := bind_eq_ok h
    obtain ⟨prs, hxs, h⟩ := bind_eq_ok h
    cases h
    exact importsOnlyExt_trans (renderColumn_ext _ _ pr hx) (ih _ prs hxs)

theorem createTableArgs_ext (ctx : AutogenContext) (columns : List ColumnDef)
    (constraints : List Constraint) (nsMeta : Option NamespaceMeta)
    (res : List String × AutogenContext)
    (h : createTableArgs ctx columns constraints nsMeta = .ok res) :
    importsOnlyExt ctx res.2 := by
  unfold createTableArgs at h
  obtain ⟨cpr, hx, h⟩ := bind_eq_ok h
  obtain ⟨rcons, _, h⟩ := bind_eq_ok h
  cases h
  exact renderColumnList_ext _ _ cpr hx

theorem addTable_ext (ctx : AutogenContext) (tableName : String) (schema : Option String)
    (columns : List ColumnDef) (constraints : List Constraint) (comment : Option String)
    (kw : List (String × String)) (tablePrefixes : List String)
    (nsMeta : Option NamespaceMeta) (res : String × AutogenContext)
    (h : addTable ctx tableName schema columns constraints comment kw tablePrefixes nsMeta =
      .ok res) : importsOnlyExt ctx res.2 := by
  unfold addTable at h
  obtain ⟨apr, hx, h⟩ := bind_eq_ok h
  cases h
  exact createTableArgs_ext _ _ _ _ apr hx

theorem addColumnRender_ext (ctx : AutogenContext) (schema : Option String)
    (tableName : String) (column : ColumnDef) (res : String × AutogenContext)
    (h : addColumnRender ctx schema tableName column = .ok res) : importsOnlyExt ctx res.2 := by
  unfold addColumnRender at h
  obtain ⟨pr, hx, h⟩ := bind_eq_ok h
  have hc := renderColumn_ext _ _ pr hx
  split at h
  · cases h
    exact hc
  · cases h
    exact hc

theorem acEtSeg_ext (ctx : AutogenContext) (op : AlterColumnOp)
    (res : List String × AutogenContext) (h : acEtSeg ctx op = .ok res) :
    importsOnlyExt ctx res.2 := by
  unfold acEtSeg at h
  split at h
  · cases h
    exact importsOnlyExt_refl ctx
  · obtain ⟨pr, hx, h⟩ := bind_eq_ok h
    cases h
    exact reprTypeCore_ext _ _ pr hx

theorem acTySeg_ext (ctx : AutogenContext) (op : AlterColumnOp)
    (res : List String × AutogenContext) (h : acTySeg ctx op = .ok res) :
    importsOnlyExt ctx res.2 := by
  unfold acTySeg at h
  split at h
  · cases h
    exact importsOnlyExt_refl ctx
  · obtain ⟨pr, hx, h⟩ := bind_eq_ok h
    cases h
    exact reprTypeCore_ext _ _ pr hx

theorem alterColumnSegments_ext (ctx : AutogenContext) (op : AlterColumnOp)
    (res : List String × AutogenContext) (h : alterColumnSegments ctx op = .ok res) :
    importsOnlyExt ctx res.2 := by
  unfold alterColumnSegments at h
  obtain ⟨et, het, h⟩ := bind_eq_ok h
  obtain ⟨ty, hty, h⟩ := bind_eq_ok h
  cases h
  exact importsOnlyExt_trans (acEtSeg_ext _ _ et het) (acTySeg_ext _ _ ty hty)

theorem alterColumnRender_ext (ctx : AutogenContext) (op : AlterColumnOp)
    (res : String × AutogenContext) (h : alterColumnRender ctx op = .ok res) :
    importsOnlyExt ctx res.2 := by
  unfold alterColumnRender at h
  obtain ⟨pr, hx, h⟩ := bind_eq_ok h
  cases h
  exact alterColumnSegments_ext _ _ pr hx

theorem importsOnlyExt_batch {ctx ctx2 : AutogenContext}
    (h : importsOnlyExt { ctx with hasBatch := true } ctx2) :
    importsOnlyExt ctx { ctx2 with hasBatch := ctx.hasBatch } := by
  obtain ⟨e, p⟩ := h
  constructor
  · rw [e]
  · exact p

set_option maxHeartbeats 1600000 in
mutual

theorem renderOp_ext (ctx : AutogenContext) (op : Op) (res : List String × AutogenContext)
    (h : renderOp ctx op = .ok res) : importsOnlyExt ctx res.2 := by
  unfold renderOp at h
  split at h
  · -- modifyTableOps
    split at h
    · cases h
      exact importsOnlyExt_refl ctx
    · split at h
      · obtain ⟨pr, hx, h⟩ := bind_eq_ok h
        cases h
        exact importsOnlyExt_batch (renderOpChildren_ext _ _ pr hx)
      · exact renderOpChildren_ext _ _ res h
  · cases h
    exact importsOnlyExt_refl ctx
  · cases h
    exact importsOnlyExt_refl ctx
  · obtain ⟨pr, hx, h⟩ := bind_eq_ok h
    cases h
    exact addTable_ext _ _ _ _ _ _ _ _ _ pr hx
  · cases h
    exact importsOnlyExt_refl ctx
  · cases h
    exact importsOnlyExt_refl ctx
  · cases h
    exact importsOnlyExt_refl ctx
  · cases h
    exact importsOnlyExt_refl ctx
  · cases h
    exact importsOnlyExt_refl ctx
  · exact Except.noConfusion h
  · exact Except.noConfusion h
  · cases h
    exact importsOnlyExt_refl ctx
  · obtain ⟨pr, hx, h⟩ := bind_eq_ok h
    cases h
    exact addColumnRender_ext _ _ _ _ pr hx
  · cases h
    exact importsOnlyExt_refl ctx
  · obtain ⟨pr, hx, h⟩ := bind_eq_ok h
    cases h
    exact alterColumnRender_ext _ _ pr hx
  · obtain ⟨text, _, h⟩ := bind_eq_ok h
    cases h
    exact importsOnlyExt_refl ctx
  · exact Except.noConfusion h

theorem renderOpChildren_ext (ctx : AutogenContext) (children : List Op)
    (res : List String × AutogenContext) (h : renderOpChildren ctx children = .ok res) :
    importsOnlyExt ctx res.2 := by
  match children with
  | [] =>
    unfold renderOpChildren at h
    cases h
    exact importsOnlyExt_refl ctx
  | c :: rest =>
    unfold renderOpChildren at h
    obtain ⟨pr, hx, h⟩ := bind_eq_ok h
    obtain ⟨prs, hxs, h⟩ := bind_eq_ok h
    cases h
    exact importsOnlyExt_trans (renderOp_ext _ _ pr hx) (renderOpChildren_ext _ _ prs hxs)

end

theorem renderOpsSeq_ext (ctx : AutogenContext) (opList : List Op)
    (res : List (List String) × AutogenContext) (h : renderOpsSeq ctx opList = .ok res) :
    importsOnlyExt ctx res.2 := by
  induction opList generalizing ctx res with
  | nil =>
    unfold renderOpsSeq at h
    cases h
    exact importsOnlyExt_refl ctx
  | cons o rest ih =>
    unfold renderOpsSeq at h
    obtain ⟨pr, hx, h⟩ := bind_eq_ok h
    obtain ⟨prs, hxs, h⟩ := bind_eq_ok h
    cases h
    exact importsOnlyExt_trans (renderOp_ext _ _ pr hx) (ih _ prs hxs)

/-! ## Which keyword segments appear in an `_alter_column` rendering

`segWithMarker m segs` holds when some rendered segment starts with the
marker `m` — the formal reading of "the output includes `m...`". -/

theorem not_pre_of_take_ne (p a x : String) (n : Nat) (hp : n ≤ p.data.length)
    (ha : n ≤ a.data.length) (hne : p.data.take n ≠ a.data.take n) :
    ¬ p.data <+: (a ++ x).data := by
  intro hpre
  rw [List.prefix_iff_eq_take] at hpre
  apply hne
  calc p.data.take n = ((a ++ x).data.take p.data.length).take n := by rw [← hpre]
    _ = (a ++ x).data.take (min n p.data.length) := List.take_take _ _ _
    _ = (a ++ x).data.take n := by rw [Nat.min_eq_left hp]
    _ = (a.data ++ x.data).take n := by rw [String.data_append]
    _ = a.data.take n := List.take_append_of_le_length ha

theorem marker_pre_self (p x : String) : p.data <+: (p ++ x).data := by
  rw [String.data_append]
  exact List.prefix_append _ _

theorem piece_no_marker (p pre : String) (n : Nat) (piece : List String)
    (hshape : ∀ s ∈ piece, ∃ x, s = pre ++ x) (hp : n ≤ p.data.length)
    (ha : n ≤ pre.data.length) (hne : p.data.take n ≠ pre.data.take n) :
    ∀ s ∈ piece, ¬ p.data <+: s.data := by
  intro s hs hpre
  obtain ⟨x, rfl⟩ := hshape s hs
  exact not_pre_of_take_ne p pre x n hp ha hne hpre

/-! Shape lemmas: every element of each `_alter_column` segment piece
starts with that piece's fixed keyword text. -/

theorem acEtSeg_shape (ctx : AutogenContext) (op : AlterColumnOp)
    (res : List String × AutogenContext) (h : acEtSeg ctx op = .ok res) :
    ∀ s ∈ res.1, ∃ x, s = ",\n           existing_type=" ++ x := by
  unfold acEtSeg at h
  split at h
  · cases h
    simp
  · obtain ⟨pr, hx, h⟩ := bind_eq_ok h
    cases h
    intro s hs
    simp at hs
    exact ⟨pr.1, hs⟩

theorem acTySeg_shape (ctx : AutogenContext) (op : AlterColumnOp)
    (res : List String × AutogenContext) (h : acTySeg ctx op = .ok res) :
    ∀ s ∈ res.1, ∃ x, s = ",\n           type_=" ++ x := by
  unfold acTySeg at h
  split at h
  · cases h
    simp
  · obtain ⟨pr, hx, h⟩ := bind_eq_ok h
    cases h
    intro s hs
    simp at hs
    exact ⟨pr.1, hs⟩

theorem acSdSeg_shape (ctx : AutogenContext) (op : AlterColumnOp) :
    ∀ s ∈ acSdSeg ctx op, ∃ x, s = ",\n           server_default=" ++ x := by
  unfold acSdSeg
  split
  · simp
  · intro s hs
    simp at hs
    exact ⟨_, hs⟩

theorem acNuSeg_shape (op : AlterColumnOp) :
    ∀ s ∈ acNuSeg op, ∃ x, s = ",\n           nullable=" ++ x := by
  unfold acNuSeg
  split
  · intro s hs
    simp at hs
    exact ⟨_, hs⟩
  · simp

theorem acCoSeg_shape (op : AlterColumnOp) :
    ∀ s ∈ acCoSeg op, ∃ x, s = ",\n           comment=" ++ x := by
  unfold acCoSeg
  split
  · simp
  · intro s hs
    simp at hs
    exact ⟨_, hs⟩

theorem acEcSeg_shape (op : AlterColumnOp) :
    ∀ s ∈ acEcSeg op, ∃ x, s = ",\n           existing_comment=" ++ x := by
  unfold acEcSeg
  split
  · intro s hs
    simp at hs
    exact ⟨_, hs⟩
  · simp

theorem acEnSeg_shape (op : AlterColumnOp) :
    ∀ s ∈ acEnSeg op, ∃ x, s = ",\n           existing_nullable=" ++ x := by
  unfold acEnSeg
  split
  · intro s hs
    simp at hs
    exact ⟨_, hs⟩
  · simp

theorem acAiSeg_shape (op : AlterColumnOp) :
    ∀ s ∈ acAiSeg op, ∃ x, s = ",\n           autoincrement=" ++ x := by
  unfold acAiSeg
  split
  · intro s hs
    simp at hs
    exact ⟨_, hs⟩
  · simp

theorem acEsdSeg_shape (ctx : AutogenContext) (op : AlterColumnOp) :
    ∀ s ∈ acEsdSeg ctx op, ∃ x, s = ",\n           existing_server_default=" ++ x := by
  unfold acEsdSeg
  split
  · split
    · intro s hs
      simp at hs
      exact ⟨_, hs⟩
    · simp
  · simp

theorem acSchSeg_shape (ctx : AutogenContext) (op : AlterColumnOp) :
    ∀ s ∈ acSchSeg ctx op, ∃ x, s = ",\n           schema=" ++ x := by
  unfold acSchSeg
  split
  · intro s hs
    simp at hs
    exact ⟨_, hs⟩
  · simp

theorem acBase_shape (ctx : AutogenContext) (op : AlterColumnOp)
    (hpre : ctx.opts.alembicModulePrefix = some "op.") :
    (∃ x, acBase ctx op = "op." ++ x) ∨ (∃ x, acBase ctx op = "batch_op." ++ x) := by
  unfold acBase alembicPref
  by_cases hb : ctx.hasBatch
  · right
    simp [hb]
  · left
    simp [hb, hpre]

theorem parenSeg_shape : ∀ s ∈ [")"], ∃ x, s = ")" ++ x := by
  intro s hs
  simp at hs
  subst hs
  exact ⟨"", by simp⟩

theorem no_marker_base (p : String) (ctx : AutogenContext) (op : AlterColumnOp)
    (hpre : ctx.opts.alembicModulePrefix = some "op.")
    (h1 : 1 ≤ p.data.length) (hc : p.data.take 1 ≠ ['o'] ∧ p.data.take 1 ≠ ['b']) :
    ¬ p.data <+: (acBase ctx op).data := by
  rcases acBase_shape ctx op hpre with ⟨x, hx⟩ | ⟨x, hx⟩ <;> rw [hx]
  · exact not_pre_of_take_ne _ _ _ 1 h1 (by decide) (by simpa using hc.1)
  · exact not_pre_of_take_ne _ _ _ 1 h1 (by decide) (by simpa using hc.2)

/-- The three `existing_*` keyword segments of an `_alter_column`
rendering appear exactly under the source's conditions:
`existing_nullable` only when `modify_nullable` was not supplied (is
`None`) and an existing value is present; `existing_server_default` only
when `modify_server_default` was not supplied (the `False` sentinel) and
the existing default is truthy; and `existing_comment` whenever an
existing comment is present, regardless of `modify_comment`. -/
theorem alterColumn_existing_markers (ctx : AutogenContext) (op : AlterColumnOp)
    (segs : List String) (ctx2 : AutogenContext)
    (hpre : ctx.opts.alembicModulePrefix = some "op.")
    (h : alterColumnSegments ctx op = .ok (segs, ctx2)) :
    (segWithMarker enMarker segs ↔ (op.modifyNullable = none ∧ op.existingNullable.isSome)) ∧
    (segWithMarker esdMarker segs ↔
      (op.modifyServerDefault = TriSD.unset ∧ sdTruthyOpt op.existingServerDefault = true)) ∧
    (segWithMarker ecMarker segs ↔ op.existingComment.isSome) := by
  unfold alterColumnSegments at h
  obtain ⟨et, het, h⟩ := bind_eq_ok h
  obtain ⟨ty, hty, h⟩ := bind_eq_ok h
  injection h with h
  injection h with h1 h2
  subst h1
  have hEt := acEtSeg_shape _ _ _ het
  have hTy := acTySeg_shape _ _ _ hty
  refine ⟨?_, ?_, ?_⟩
  · -- existing_nullable
    constructor
    · rintro ⟨s, hs, hp⟩
      simp only [List.mem_append, List.mem_singleton] at hs
      rcases hs with ((((((((((hs | hs) | hs) | hs) | hs) | hs) | hs) | hs) | hs) | hs) | hs) | hs
      · subst hs
        exact absurd hp (no_marker_base enMarker ctx op hpre (by decide) (by decide))
      · exact absurd hp (piece_no_marker enMarker (",\n           existing_type=") 23 et.1 hEt
          (by decide) (by decide) (by decide) s hs)
      · exact absurd hp (piece_no_marker enMarker (",\n           server_default=") 14 _
          (acSdSeg_shape et.2 op) (by decide) (by decide) (by decide) s hs)
      · exact absurd hp (piece_no_marker enMarker (",\n           type_=") 14 ty.1 hTy
          (by decide) (by decide) (by decide) s hs)
      · exact absurd hp (piece_no_marker enMarker (",\n           nullable=") 14 _
          (acNuSeg_shape op) (by decide) (by decide) (by decide) s hs)
      · exact absurd hp (piece_no_marker enMarker (",\n           comment=") 14 _
          (acCoSeg_shape op) (by decide) (by decide) (by decide) s hs)
      · exact absurd hp (piece_no_marker enMarker (",\n           existing_comment=") 23 _
          (acEcSeg_shape op) (by decide) (by decide) (by decide) s hs)
      · -- the target piece
        cases hn : op.modifyNullable with
        | some b => simp [acEnSeg, hn] at hs
        | none =>
          cases he : op.existingNullable with
          | none => simp [acEnSeg, hn, he] at hs
          | some b => exact ⟨rfl, by simp [he]⟩
      · exact absurd hp (piece_no_marker enMarker (",\n           autoincrement=") 14 _
          (acAiSeg_shape op) (by decide) (by decide) (by decide) s hs)
      · exact absurd hp (piece_no_marker enMarker (",\n           existing_server_default=") 23 _
          (acEsdSeg_shape ty.2 op) (by decide) (by decide) (by decide) s hs)
      · exact absurd hp (piece_no_marker enMarker (",\n           schema=") 14 _
          (acSchSeg_shape ty.2 op) (by decide) (by decide) (by decide) s hs)
      · subst hs
        exact absurd hp (by decide)
    · rintro ⟨hn, hsome⟩
      obtain ⟨b, he⟩ := Option.isSome_iff_exists.mp hsome
      refine ⟨",\n           existing_nullable=" ++ pyBoolStr b, ?_, marker_pre_self enMarker _⟩
      simp [acEnSeg, hn, he, List.mem_append]
  · -- existing_server_default
    constructor
    · rintro ⟨s, hs, hp⟩
      simp only [List.mem_append, List.mem_singleton] at hs
      rcases hs with ((((((((((hs | hs) | hs) | hs) | hs) | hs) | hs) | hs) | hs) | hs) | hs) | hs
      · subst hs
        exact absurd hp (no_marker_base esdMarker ctx op hpre (by decide) (by decide))
      · exact absurd hp (piece_no_marker esdMarker (",\n           existing_type=") 23 et.1 hEt
          (by decide) (by decide) (by decide) s hs)
      · exact absurd hp (piece_no_marker esdMarker (",\n           server_default=") 14 _
          (acSdSeg_shape et.2 op) (by decide) (by decide) (by decide) s hs)
      · exact absurd hp (piece_no_marker esdMarker (",\n           type_=") 14 ty.1 hTy
          (by decide) (by decide) (by decide) s hs)
      · exact absurd hp (piece_no_marker esdMarker (",\n           nullable=") 14 _
          (acNuSeg_shape op) (by decide) (by decide) (by decide) s hs)
      · exact absurd hp (piece_no_marker esdMarker (",\n           comment=") 14 _
          (acCoSeg_shape op) (by decide) (by decide) (by decide) s hs)
      · exact absurd hp (piece_no_marker esdMarker (",\n           existing_comment=") 23 _
          (acEcSeg_shape op) (by decide) (by decide) (by decide) s hs)
      · exact absurd hp (piece_no_marker esdMarker (",\n           existing_nullable=") 23 _
          (acEnSeg_shape op) (by decide) (by decide) (by decide) s hs)
      · exact absurd hp (piece_no_marker esdMarker (",\n           autoincrement=") 14 _
          (acAiSeg_shape op) (by decide) (by decide) (by decide) s hs)
      · -- the target piece
        cases hm : op.modifyServerDefault with
        | value v => simp [acEsdSeg, hm] at hs
        | unset =>
          cases hesd : op.existingServerDefault with
          | none => simp [acEsdSeg, hm, hesd] at hs
          | some esd =>
            by_cases ht : sdTruthy esd
            · exact ⟨rfl, by simp [sdTruthyOpt, hesd, ht]⟩
            · simp [acEsdSeg, hm, hesd, ht] at hs
      · exact absurd hp (piece_no_marker esdMarker (",\n           schema=") 14 _
          (acSchSeg_shape ty.2 op) (by decide) (by decide) (by decide) s hs)
      · subst hs
        exact absurd hp (by decide)
    · rintro ⟨hm, ht⟩
      cases hesd : op.existingServerDefault with
      | none =>
        rw [hesd] at ht
        simp [sdTruthyOpt] at ht
      | some esd =>
        refine ⟨",\n           existing_server_default=" ++
          (renderServerDefault esd ty.2).getD "None", ?_, marker_pre_self esdMarker _⟩
        have ht' : sdTruthy esd = true := by
          have := ht
          rw [hesd] at this
          simpa [sdTruthyOpt] using this
        simp [acEsdSeg, hm, hesd, ht', List.mem_append]
  · -- existing_comment
    constructor
    · rintro ⟨s, hs, hp⟩
      simp only [List.mem_append, List.mem_singleton] at hs
      rcases hs with ((((((((((hs | hs) | hs) | hs) | hs) | hs) | hs) | hs) | hs) | hs) | hs) | hs
      · subst hs
        exact absurd hp (no_marker_base ecMarker ctx op hpre (by decide) (by decide))
      · exact absurd hp (piece_no_marker ecMarker (",\n           existing_type=") 23 et.1 hEt
          (by decide) (by decide) (by decide) s hs)
      · exact absurd hp (piece_no_marker ecMarker (",\n           server_default=") 14 _
          (acSdSeg_shape et.2 op) (by decide) (by decide) (by decide) s hs)
      · exact absurd hp (piece_no_marker ecMarker (",\n           type_=") 14 ty.1 hTy
          (by decide) (by decide) (by decide) s hs)
      · exact absurd hp (piece_no_marker ecMarker (",\n           nullable=") 14 _
          (acNuSeg_shape op) (by decide) (by decide) (by decide) s hs)
      · exact absurd hp (piece_no_marker ecMarker (",\n           comment=") 14 _
          (acCoSeg_shape op) (by decide) (by decide) (by decide) s hs)
      · -- the target piece
        cases hc : op.existingComment with
        | none => simp [acEcSeg, hc] at hs
        | some c => simp [hc]
      · exact absurd hp (piece_no_marker ecMarker (",\n           existing_nullable=") 23 _
          (acEnSeg_shape op) (by decide) (by decide) (by decide) s hs)
      · exact absurd hp (piece_no_marker ecMarker (",\n           autoincrement=") 14 _
          (acAiSeg_shape op) (by decide) (by decide) (by decide) s hs)
      · exact absurd hp (piece_no_marker ecMarker (",\n           existing_server_default=") 23 _
          (acEsdSeg_shape ty.2 op) (by decide) (by decide) (by decide) s hs)
      · exact absurd hp (piece_no_marker ecMarker (",\n           schema=") 14 _
          (acSchSeg_shape ty.2 op) (by decide) (by decide) (by decide) s hs)
      · subst hs
        exact absurd hp (by decide)
    · intro hsome
      obtain ⟨c, hc⟩ := Option.isSome_iff_exists.mp hsome
      refine ⟨",\n           existing_comment=" ++ pyReprStr c, ?_, marker_pre_self ecMarker _⟩
      simp [acEcSeg, hc, List.mem_append]

/-! ## `_fk_colspec`: splitting and re-joining the reference tokens -/

theorem splitDotL_ne_nil (l : List Char) : splitDotL l ≠ [] := by
  cases l with
  | nil => simp [splitDotL]
  | cons c rest =>
    unfold splitDotL
    split
    · simp
    · split <;> simp

theorem joinDotS_splitDot (l : List Char) :
    joinDotS ((splitDotL l).map (fun cs => String.mk cs)) = String.mk l := by
  induction l with
  | nil => rfl
  | cons c rest ih =>
    unfold splitDotL
    by_cases hc : c = '.'
    · subst hc
      simp only [if_pos rfl, List.map]
      cases hxs : (splitDotL rest).map (fun cs => String.mk cs) with
      | nil => exact absurd (List.map_eq_nil_iff.mp hxs) (splitDotL_ne_nil rest)
      | cons x xs =>
        rw [hxs] at ih
        apply String.ext
        have : joinDotS (String.mk [] :: x :: xs) = String.mk [] ++ "." ++ joinDotS (x :: xs) :=
          rfl
        rw [this, ih]
        simp [String.data_append]
    · rw [if_neg hc]
      cases hsp : splitDotL rest with
      | nil => exact absurd hsp (splitDotL_ne_nil rest)
      | cons h t =>
        rw [hsp] at ih
        cases t with
        | nil =>
          simp only [List.map] at ih ⊢
          have hjs : joinDotS [String.mk h] = String.mk h := rfl
          rw [hjs] at ih
          have : joinDotS [String.mk (c :: h)] = String.mk (c :: h) := rfl
          rw [this]
          apply String.ext
          have hd : h = rest := by
            have := congrArg String.data ih
            simpa using this
          simp [hd]
        | cons y ys =>
          simp only [List.map] at ih ⊢
          have hjs : joinDotS (String.mk (c :: h) :: String.mk y :: ys.map (fun cs => String.mk cs)) =
              String.mk (c :: h) ++ "." ++
                joinDotS (String.mk y :: ys.map (fun cs => String.mk cs)) := rfl
          rw [hjs]
          have hjs2 : joinDotS (String.mk h :: String.mk y :: ys.map (fun cs => String.mk cs)) =
              String.mk h ++ "." ++
                joinDotS (String.mk y :: ys.map (fun cs => String.mk cs)) := rfl
          rw [hjs2] at ih
          apply String.ext
          have := congrArg String.data ih
          simp only [String.data_append] at this ⊢
          simp at this ⊢
          rw [this]

theorem joinDotS_dropLast_getLast (ss : List String) (h : 2 ≤ ss.length) :
    joinDotS ss.dropLast ++ "." ++ ss.getLastD "" = joinDotS ss := by
  induction ss with
  | nil => simp at h
  | cons x rest ih =>
    cases rest with
    | nil => simp at h
    | cons y ys =>
      cases ys with
      | nil => rfl
      | cons z zs =>
        have h2 : 2 ≤ (y :: z :: zs).length := by simp
        have hd : (x :: y :: z :: zs).dropLast = x :: (y :: z :: zs).dropLast := rfl
        have hlast : (x :: y :: z :: zs).getLastD "" = (y :: z :: zs).getLastD "" := by
          simp [List.getLastD]
        rw [hd, hlast]
        have hjoin : joinDotS (x :: (y :: z :: zs).dropLast) =
            x ++ "." ++ joinDotS ((y :: z :: zs).dropLast) := by
          cases hdl : (y :: z :: zs).dropLast with
          | nil => simp at hdl
          | cons a as => rfl
        rw [hjoin]
        have : joinDotS (x :: y :: z :: zs) = x ++ "." ++ joinDotS (y :: z :: zs) := rfl
        rw [this, ← ih h2]
        apply String.ext
        simp [String.data_append]

theorem pySplitDot_join (s : String) : joinDotS (pySplitDot s) = s := by
  unfold pySplitDot
  rw [joinDotS_splitDot]


/-! ## The claims -/

/-- C1 (counterexample): rendering an operation whose kind has no
registered renderer does NOT degrade to a placeholder line — at the
concrete unregistered operation it raises the dispatch error naming the
unhandled type, and never returns rendered lines. -/
theorem C1_counterexample :
    renderOp ctx0 (.unregistered "MyNewOp()") = .error (.dispatchError "MyNewOp()") ∧
    ∀ lines ctx', renderOp ctx0 (.unregistered "MyNewOp()") ≠ .ok (lines, ctx') := by
  have h : renderOp ctx0 (.unregistered "MyNewOp()") = .error (.dispatchError "MyNewOp()") := by
    unfold renderOp
    rfl
  exact ⟨h, fun lines ctx' hok => by rw [h] at hok; exact Except.noConfusion hok⟩

/-- C1 (amended): operation-level dispatch fails hard with a dispatch
error naming the unhandled type for every unregistered operation kind;
only the constraint-level dispatch degrades, warning and producing the
`[Unknown Python object ...]` placeholder text. -/
theorem C1_unregistered_dispatch :
    (∀ (ctx : AutogenContext) (r : String),
      renderOp ctx (.unregistered r) = .error (.dispatchError r)) ∧
    (∀ (ctx : AutogenContext) (nsMeta : Option NamespaceMeta) (r : String),
      renderConstraint (.unregistered r) ctx nsMeta =
        .ok (some ("[Unknown Python object " ++ r ++ "]"),
             ["No renderer is established for object " ++ r])) := by
  constructor
  · intro ctx r
    unfold renderOp
    rfl
  · intro ctx nsMeta r
    rfl

set_option maxRecDepth 8192 in
/-- C2 (counterexample): with `modify_comment` supplied (`'new'`) and
`existing_comment='old'`, the rendered `alter_column` still appends the
`existing_comment` segment — refuting "appends `existing_comment` only
when `modify_comment` was not itself supplied". -/
theorem C2_counterexample :
    acOpC2.modifyComment ≠ TriComment.unset ∧
    alterColumnSegments ctx0 acOpC2 = .ok (segsC2, ctx0) ∧
    segWithMarker ecMarker segsC2 := by
  refine ⟨by decide, rfl, ?_⟩
  exact ⟨",\n           existing_comment='old'", by decide, by decide⟩

/-- C2 (amended): in the rendered `alter_column` segments,
`existing_nullable` appears iff `modify_nullable` was not supplied and an
existing value is present; `existing_server_default` appears iff
`modify_server_default` was not supplied and the existing default is
truthy; and `existing_comment` appears iff an existing comment is
present — regardless of `modify_comment`. -/
theorem C2_alter_column_existing_fields (ctx : AutogenContext) (op : AlterColumnOp)
    (segs : List String) (ctx2 : AutogenContext)
    (hpre : ctx.opts.alembicModulePrefix = some "op.")
    (h : alterColumnSegments ctx op = .ok (segs, ctx2)) :
    (segWithMarker enMarker segs ↔ (op.modifyNullable = none ∧ op.existingNullable.isSome)) ∧
    (segWithMarker esdMarker segs ↔
      (op.modifyServerDefault = TriSD.unset ∧ sdTruthyOpt op.existingServerDefault = true)) ∧
    (segWithMarker ecMarker segs ↔ op.existingComment.isSome) :=
  alterColumn_existing_markers ctx op segs ctx2 hpre h

set_option maxRecDepth 8192 in
/-- C2 witness: at the spec's example (`modify_nullable` unsupplied,
`existing_nullable=True`) the theorem's hypotheses hold and the
`existing_nullable` segment is present. -/
theorem C2_witness :
    ctx0.opts.alembicModulePrefix = some "op." ∧
    alterColumnSegments ctx0 acOpW = .ok (segsW, ctx0) ∧
    segWithMarker enMarker segsW := by
  refine ⟨rfl, rfl, ?_⟩
  exact (C2_alter_column_existing_fields ctx0 acOpW segsW ctx0 rfl rfl).1.mpr (by decide)

/-- C3 (counterexample): with namespace-metadata schema `s1` and an
unresolvable 2-token reference `t1.c1`, `_fk_colspec` returns the
schema-qualified `s1.t1.c1`, not the original reference text
unmodified. -/
theorem C3_counterexample :
    fkColspec fkC3 (some "s1") nmC3 = "s1.t1.c1" ∧
    tableGet nmC3.tables "s1.t1" = none ∧
    fkColspec fkC3 (some "s1") nmC3 ≠ fkC3.colspec := by
  exact ⟨by decide, rfl, by decide⟩

/-- C3 (amended): when the remote table resolves in the namespace
metadata, the rendered reference uses the resolved column's logical name;
when it does not resolve, the reference is re-emitted as
`table_fullname.colname` with the original column token — which is the
original reference text unmodified whenever the metadata carries no
schema (the schema-qualification of bare 2-token references is the one
modification applied). -/
theorem C3_fk_colspec_resolution (fk : FKElem) (ms : Option String) (nm : NamespaceMeta) :
    (∀ tbl colName, fk.linkToName = false → fk.parentResolvable = true →
      tableGet nm.tables (fkTableFullname (fkTokens fk) ms) = some tbl →
      colGet tbl.columns ((fkTokens fk).getLastD "") = some colName →
      fkColspec fk ms nm = fkTableFullname (fkTokens fk) ms ++ "." ++ colName) ∧
    (tableGet nm.tables (fkTableFullname (fkTokens fk) ms) = none →
      fkColspec fk ms nm =
        fkTableFullname (fkTokens fk) ms ++ "." ++ (fkTokens fk).getLastD "") ∧
    (ms = none → 2 ≤ (fkTokens fk).length →
      tableGet nm.tables (fkTableFullname (fkTokens fk) none) = none →
      fkColspec fk none nm = fk.colspec) := by
  have hunres : ∀ (ms' : Option String),
      tableGet nm.tables (fkTableFullname (fkTokens fk) ms') = none →
      fkResolvedColname fk ms' nm = (fkTokens fk).getLastD "" := by
    intro ms' htbl
    unfold fkResolvedColname
    split
    · rw [htbl]
    · rfl
  refine ⟨?_, ?_, ?_⟩
  · intro tbl colName hl hr htbl hcol
    unfold fkColspec fkResolvedColname
    rw [if_pos (by simp [hl, hr]), htbl]
    simp only [hcol]
  · intro htbl
    unfold fkColspec
    rw [hunres ms htbl]
  · intro hms h2 htbl
    have hb : fkColspec fk none nm =
        fkTableFullname (fkTokens fk) none ++ "." ++ (fkTokens fk).getLastD "" := by
      unfold fkColspec
      rw [hunres none htbl]
    rw [hb]
    have hfull : fkTableFullname (fkTokens fk) none = joinDotS (fkTokens fk).dropLast := rfl
    rw [hfull, joinDotS_dropLast_getLast (fkTokens fk) h2]
    exact pySplitDot_join fk.colspec

/-- C3 witness: the resolvable case rewrites `other.oid` to the logical
name `other.o_id`; the unresolvable no-schema case returns `t1.c1`
unmodified. -/
theorem C3_witness :
    fkColspec fkW none nmW = "other" ++ "." ++ "o_id" ∧
    fkColspec fkC3 none { schema := none, tables := [] } = "t1.c1" := by
  constructor
  · exact (C3_fk_colspec_resolution fkW none nmW).1 { columns := [("oid", "o_id")] } "o_id"
      rfl rfl rfl rfl
  · exact (C3_fk_colspec_resolution fkC3 none { schema := none, tables := [] }).2.2
      rfl (by decide) rfl

/-- C4: `_add_table` switches to the unpacked-list call form exactly when
the rendered argument count exceeds `MAX_PYTHON_ARGS = 255`: 256 or more
arguments use `*[...]`, 255 or fewer use the flat comma-joined form. -/
theorem C4_create_table_arg_ceiling (args : List String) :
    MAX_PYTHON_ARGS = 255 ∧
    (256 ≤ args.length →
      createTableArgsStr args = "*[" ++ String.intercalate ",\n" args ++ "]") ∧
    (args.length ≤ 255 → createTableArgsStr args = String.intercalate ",\n" args) := by
  refine ⟨rfl, ?_, ?_⟩ <;> intro h <;> unfold createTableArgsStr <;> split
  · rfl
  · rename_i hc
    exact absurd (by unfold MAX_PYTHON_ARGS; omega) hc
  · rename_i hc
    unfold MAX_PYTHON_ARGS at hc
    omega
  · rfl

/-- C4 witness: 256 arguments take the unpacked-list form; 255 take the
flat form. -/
theorem C4_witness :
    (256 ≤ (List.replicate 256 "sa.Column()").length ∧
      createTableArgsStr (List.replicate 256 "sa.Column()") =
        "*[" ++ String.intercalate ",\n" (List.replicate 256 "sa.Column()") ++ "]") ∧
    ((List.replicate 255 "sa.Column()").length ≤ 255 ∧
      createTableArgsStr (List.replicate 255 "sa.Column()") =
        String.intercalate ",\n" (List.replicate 255 "sa.Column()")) := by
  have h1 : (256 : Nat) ≤ (List.replicate 256 "sa.Column()").length := by
    rw [List.length_replicate]
  have h2 : (List.replicate 255 "sa.Column()").length ≤ 255 := by
    rw [List.length_replicate]
  exact ⟨⟨h1, (C4_create_table_arg_ceiling _).2.1 h1⟩,
         ⟨h2, (C4_create_table_arg_ceiling _).2.2 h2⟩⟩

/-- C5: `_execute_sql` succeeds exactly on plain string payloads,
producing an `op.execute('...')` call carrying the string; a structured
SQL expression payload raises the not-supported error. -/
theorem C5_execute_sql (ctx : AutogenContext) (s objRepr : String) :
    renderOp ctx (.executeSql (.str s)) = .ok (["op.execute(" ++ pyReprStr s ++ ")"], ctx) ∧
    renderOp ctx (.executeSql (.expr objRepr)) =
      .error (.notImplementedError
        ("Autogenerate rendering of SQL Expression language constructs " ++
         "not supported here; please use a plain SQL string")) := by
  constructor <;> unfold renderOp <;> rfl

/-- C6: the direct `CreatePrimaryKey` and `CreateCheckConstraint`
operation renderers raise `NotImplementedError` for all inputs. -/
theorem C6_pk_check_unimplemented (ctx : AutogenContext) (n : Option CName)
    (t : String) (sch : Option String) (cols : List String) (cond : String) :
    renderOp ctx (.createPrimaryKey n t sch cols) = .error (.notImplementedError "") ∧
    renderOp ctx (.createCheckConstraint n t sch cond) = .error (.notImplementedError "") := by
  constructor <;> unfold renderOp <;> rfl

/-- C7: `_render_cmd_body` emits exactly one `pass` between the marker
comments when no operation produced any line, and inserts no `pass` when
at least one line was produced. -/
theorem C7_cmd_body_pass (ctx : AutogenContext) (containerOps : List Op)
    (lss : List (List String)) (ctx' : AutogenContext)
    (h : renderOpsSeq ctx containerOps = .ok (lss, ctx')) :
    ((∀ ls ∈ lss, ls = []) →
      renderCmdBody ctx containerOps = .ok ([cmdMarkerLead, "pass", cmdMarkerEnd], ctx')) ∧
    ((∃ ls ∈ lss, ls ≠ []) →
      renderCmdBody ctx containerOps =
        .ok ([cmdMarkerLead] ++ lss.flatten ++ [cmdMarkerEnd], ctx')) := by
  constructor
  · intro hall
    unfold renderCmdBody
    rw [h]
    simp only [exbind_ok]
    have hflat : lss.flatten = [] := List.flatten_eq_nil_iff.mpr hall
    have hany : lss.any (fun ls => !ls.isEmpty) = false := by
      simp only [List.any_eq_false]
      intro x hx
      rw [hall x hx]
      simp
    rw [hany, hflat]
    simp
  · rintro ⟨ls, hls, hne⟩
    unfold renderCmdBody
    rw [h]
    simp only [exbind_ok]
    have hany : lss.any (fun ls => !ls.isEmpty) = true := by
      simp only [List.any_eq_true]
      exact ⟨ls, hls, by simpa [List.isEmpty_iff] using hne⟩
    rw [hany]
    simp

/-- C7 witness: an empty container yields exactly the `pass` body; a
container with one `DropTable` yields its line and no `pass`. -/
theorem C7_witness :
    renderCmdBody ctx0 [] = .ok ([cmdMarkerLead, "pass", cmdMarkerEnd], ctx0) ∧
    renderCmdBody ctx0 [.dropTable "t" none] =
      .ok ([cmdMarkerLead] ++ [[dropTableText ctx0 "t" none]].flatten ++ [cmdMarkerEnd],
        ctx0) := by
  constructor
  · exact (C7_cmd_body_pass ctx0 [] [] ctx0 rfl).1 (by simp)
  · have hseq : renderOpsSeq ctx0 [.dropTable "t" none] =
        .ok ([[dropTableText ctx0 "t" none]], ctx0) := by
      unfold renderOpsSeq renderOp
      rfl
    refine (C7_cmd_body_pass ctx0 _ _ _ hseq).2 ⟨[dropTableText ctx0 "t" none], by simp, by simp⟩

/-- C8: an empty `ModifyTableOps` renders to the empty line sequence
(never a batch block header), for every context — in particular whatever
the `render_as_batch` option says. -/
theorem C8_empty_modify_table (ctx : AutogenContext) (t : String) (sch : Option String) :
    renderOp ctx (.modifyTableOps t sch []) = .ok ([], ctx) := by
  unfold renderOp
  rfl

theorem addImport_not_mem (l : List String) (x : String) (h : x ∉ l) :
    addImport l x = l ++ [x] := by
  unfold addImport
  rw [if_neg h]

theorem addImport_mem (l : List String) (x : String) (h : x ∈ l) : addImport l x = l := by
  unfold addImport
  rw [if_pos h]

theorem dialectName_isPre (m : String) (d : String) (h : dialectName m = some d) :
    "sqlalchemy.dialects".data.isPrefixOf m.data = true := by
  unfold dialectName at h
  split at h
  · rename_i hp
    rw [List.isPrefixOf_iff_prefix] at hp ⊢
    exact List.IsPrefix.trans (by decide) hp
  · exact Option.noConfusion h

/-- The dialect branch of `_repr_type`: with no user hook and a matching
dialect module, the rendering records the dialect import and returns the
impl renderer's text when present, else `<dialect>.<repr>`. -/
theorem reprTypeCore_dialect (t : TypeDesc) (ctx : AutogenContext) (dname : String)
    (hhook : ctx.opts.renderItem = none) (hd : dialectName t.moduleOf = some dname) :
    reprTypeCore t ctx = .ok ((ctx.implRenderType t).getD (dname ++ "." ++ t.reprOf),
      ctx.withImport ("from sqlalchemy.dialects import " ++ dname)) := by
  have hu : userDefinedRender ("type") ctx = none := by
    unfold userDefinedRender
    rw [hhook]
  have hp := dialectName_isPre _ _ hd
  unfold reprTypeCore reprTypePre
  rw [hu, if_pos hp, hd]
  cases him : ctx.implRenderType t with
  | none => simp [him]
  | some r => simp [him]

/-- C9: the import set only grows across every operation-renderer call;
rendering a vendor-dialect type with no user hook adds exactly one import
entry for that dialect namespace when it is not yet present; and
rendering one when the entry is already present leaves the import set
unchanged. -/
theorem C9_imports_monotone_dialect :
    (∀ (ctx : AutogenContext) (op : Op) (res : List String × AutogenContext),
      renderOp ctx op = .ok res → ∀ x ∈ ctx.imports, x ∈ res.2.imports) ∧
    (∀ (t : TypeDesc) (ctx : AutogenContext) (dname : String),
      ctx.opts.renderItem = none →
      dialectName t.moduleOf = some dname →
      ("from sqlalchemy.dialects import " ++ dname) ∉ ctx.imports →
      ∃ s, reprTypeCore t ctx =
        .ok (s, { ctx with
          imports := ctx.imports ++ ["from sqlalchemy.dialects import " ++ dname] })) ∧
    (∀ (t : TypeDesc) (ctx : AutogenContext) (dname : String)
      (res : String × AutogenContext),
      ctx.opts.renderItem = none →
      dialectName t.moduleOf = some dname →
      ("from sqlalchemy.dialects import " ++ dname) ∈ ctx.imports →
      reprTypeCore t ctx = .ok res → res.2.imports = ctx.imports) := by
  refine ⟨?_, ?_, ?_⟩
  · intro ctx op res h x hx
    exact (renderOp_ext ctx op res h).2.subset hx
  · intro t ctx dname hhook hd hnm
    refine ⟨(ctx.implRenderType t).getD (dname ++ "." ++ t.reprOf), ?_⟩
    rw [reprTypeCore_dialect t ctx dname hhook hd]
    unfold AutogenContext.withImport
    rw [addImport_not_mem _ _ hnm]
  · intro t ctx dname res hhook hd hmem hres
    rw [reprTypeCore_dialect t ctx dname hhook hd] at hres
    injection hres with hres
    rw [← hres]
    unfold AutogenContext.withImport
    simp [addImport_mem _ _ hmem]

/-- C9 witness: with the default context and `postgresql.UUID`, the
hypotheses hold: one import entry is added on first render, prior entries
survive an operation render, and a second render adds nothing. -/
theorem C9_witness :
    ctx0.opts.renderItem = none ∧
    dialectName uuidT.moduleOf = some "postgresql" ∧
    pgImport ∉ ctx0.imports ∧
    (∃ s, reprTypeCore uuidT ctx0 = .ok (s, { ctx0 with imports := ctx0.imports ++ [pgImport] })) ∧
    pgImport ∈ ([dropTableText ctxPg "t" none], ctxPg).2.imports ∧
    (ctxPg.withImport pgImport).imports = ctxPg.imports := by
  refine ⟨rfl, rfl, by simp [ctx0], ?_, ?_, ?_⟩
  · exact C9_imports_monotone_dialect.2.1 uuidT ctx0 "postgresql" rfl rfl (by simp [ctx0])
  · exact C9_imports_monotone_dialect.1 ctxPg (.dropTable "t" none)
      ([dropTableText ctxPg "t" none], ctxPg) (by unfold renderOp; rfl) pgImport
      (by simp [ctxPg])
  · have hres := reprTypeCore_dialect uuidT ctxPg "postgresql" rfl rfl
    exact C9_imports_monotone_dialect.2.2 uuidT ctxPg "postgresql" _ rfl rfl
      (by simp [ctxPg, pgImport]) hres

/-- C10: `_execute_sql` emits the fixed literal prefix `op.` for every
context — ignoring both the configured `alembic_module_prefix` and the
inside-batch flag — while the other operation renderers route their
prefix through `_alembic_autogenerate_prefix` (`batch_op.` inside a
batch block, the configured prefix otherwise), as `_drop_table`
illustrates. -/
theorem C10_execute_sql_literal_prefix :
    (∀ (ctx : AutogenContext) (s : String),
      renderOp ctx (.executeSql (.str s)) = .ok (["op.execute(" ++ pyReprStr s ++ ")"], ctx)) ∧
    (∀ ctx : AutogenContext, ctx.hasBatch = true → alembicPref ctx = "batch_op.") ∧
    (∀ ctx : AutogenContext, ctx.hasBatch = false →
      alembicPref ctx = ctx.opts.alembicModulePrefix.getD "") ∧
    (∀ (ctx : AutogenContext) (t : String) (sch : Option String),
      renderOp ctx (.dropTable t sch) = .ok ([dropTableText ctx t sch], ctx) ∧
      dropTableText ctx t none = alembicPref ctx ++ ("drop_table(" ++ pyReprStr t ++ ")")) := by
  refine ⟨?_, ?_, ?_, ?_⟩
  · intro ctx s
    unfold renderOp
    rfl
  · intro ctx hb
    unfold alembicPref
    rw [if_pos hb]
  · intro ctx hb
    unfold alembicPref
    rw [if_neg (by rw [hb]; exact Bool.false_ne_true)]
  · intro ctx t sch
    constructor
    · unfold renderOp
      rfl
    · apply String.ext
      simp [dropTableText, String.data_append]

/-- C10 witness: inside a batch block the alembic prefix is
`batch_op.`; outside it is the configured prefix. -/
theorem C10_witness :
    ({ ctx0 with hasBatch := true } : AutogenContext).hasBatch = true ∧
    alembicPref { ctx0 with hasBatch := true } = "batch_op." ∧
    ctx0.hasBatch = false ∧
    alembicPref ctx0 = ctx0.opts.alembicModulePrefix.getD "" := by
  refine ⟨rfl, ?_, rfl, ?_⟩
  · exact C10_execute_sql_literal_prefix.2.1 { ctx0 with hasBatch := true } rfl
  · exact C10_execute_sql_literal_prefix.2.2.1 ctx0 rfl

end Render
